import Mathlib

/-!
Verification development for the `gitops-update-action` repository
(`src/index.js`).  The action reads a Helm values file from a freshly
cloned GitOps repository, replaces `image.tag`, commits and pushes the
change on a derived branch, then creates, labels and merges a pull
request through the hosting REST API.

The JavaScript source is shallowly embedded: every function of
`src/index.js` that the claims touch becomes a Lean definition of the
same name.  External collaborators (filesystem, git transport, REST
API) are supplied as an `Oracle` of call results, and each embedded
function returns, besides its value, the list of external effects it
performed and the log lines it emitted, so that frame conditions
("no push happened") are plain statements about the returned lists.
-/

namespace GitopsUpdate

/-! ## JavaScript values

`js-yaml`'s `load` hands the action an untyped JavaScript value; the
action then dereferences `data.image.tag`.  `JVal` models the
JavaScript values that can arise: `jundefined` is `undefined` (also the
result of reading an absent property), `jnull` is `null`. -/

inductive JVal where
  | jnull
  | jundefined
  | jbool (b : Bool)
  | jnum (n : Int)
  | jstr (s : String)
  | jarr (items : List JVal)
  | jobj (fields : List (String × JVal))

/-- A thrown JavaScript error: `typeError` models an uncaught
`TypeError`, `jsError msg` a plain `Error(msg)`. -/
inductive JsErr where
  | typeError (msg : String)
  | jsError (msg : String)
deriving DecidableEq

/-- `error.message` of a thrown JavaScript error. -/
def JsErr.message : JsErr → String
  | .typeError m => m
  | .jsError m => m

/-- JavaScript property read `v[key]`: throws a `TypeError` on
`undefined` and `null` receivers, yields the field on objects
(`undefined` when absent), and yields `undefined` on the remaining
primitives and on arrays (no property named by the keys this program
uses exists on them). -/
def jget (v : JVal) (key : String) : Except JsErr JVal :=
  match v with
  | .jundefined => .error (.typeError ("Cannot read properties of undefined (reading \x27" ++ key ++ "\x27)"))
  | .jnull => .error (.typeError ("Cannot read properties of null (reading \x27" ++ key ++ "\x27)"))
  | .jobj fields =>
      match fields.lookup key with
      | some w => .ok w
      | none => .ok .jundefined
  | _ => .ok .jundefined

/-- The expression `data.image.tag` of `src/index.js` line 114: two
chained property reads, each of which can throw. -/
def derefImageTag (data : JVal) : Except JsErr JVal :=
  match jget data "image" with
  | .error e => .error e
  | .ok img => jget img "tag"

/-- JavaScript strict equality `v === tag` where `tag` is known to be
a string: true exactly for a string value with the same contents. -/
def strictEqStr (v : JVal) (tag : String) : Bool :=
  match v with
  | .jstr s => s = tag
  | _ => false

/-- Replace the binding of `key` in an association list if present;
append it otherwise (JavaScript assignment adds absent properties). -/
def setField (fields : List (String × JVal)) (key : String) (v : JVal) :
    List (String × JVal) :=
  match fields with
  | [] => [(key, v)]
  | (k, w) :: rest =>
      if k = key then (k, v) :: rest else (k, w) :: setField rest key v

/-- The effect of `\x2e.tag = tag` on the value of the `image`
property: set `tag` on an object; the sloppy-mode assignment on a
primitive receiver is a silent no-op. -/
def imgUpd (tag : String) (v : JVal) : JVal :=
  match v with
  | .jobj inner => .jobj (setField inner "tag" (.jstr tag))
  | other => other

/-- Apply `imgUpd` to the binding named `image`, leaving every other
binding untouched. -/
def updImage (tag : String) (kv : String × JVal) : String × JVal :=
  if kv.1 = "image" then (kv.1, imgUpd tag kv.2) else kv

/-- The assignment `data.image.tag = tag` of `src/index.js` line 119.
It is only evaluated after `data.image.tag` was read without throwing,
so `data` is then an object whose `image` field is neither `null` nor
`undefined`; when that field is an object its `tag` property is set,
and when it is another primitive the sloppy-mode assignment is a
silent no-op.  The definition is total, leaving other shapes
unchanged. -/
def setImageTag (data : JVal) (tag : String) : JVal :=
  match data with
  | .jobj fields => .jobj (fields.map (updImage tag))
  | other => other

/-- Look a key up in an object value (`none` on non-objects and absent
keys); used to state frame conditions about `setImageTag`. -/
def jlookup (v : JVal) (key : String) : Option JVal :=
  match v with
  | .jobj fields => fields.lookup key
  | _ => none

/-! ## YAML fragment

The action consumes and produces YAML through `js-yaml`'s `load` and
`dump`, which are external to the repository.  They are modelled here
on the fragment of YAML the action's values files use: block-style
nested mappings of plain scalars, with comment lines.  `load` discards
comments; `dump` re-serialises the parsed structure in canonical block
style (two-space indentation) and never re-emits comments — that
asymmetry is exactly what the byte-identity claim is about.  All text
processing is done on `List Char` by structural recursion. -/

/-- Split a character list on a separator character. -/
def splitOnChar (c : Char) : List Char → List (List Char)
  | [] => [[]]
  | x :: xs =>
    if x = c then [] :: splitOnChar c xs
    else
      match splitOnChar c xs with
      | [] => [[x]]
      | g :: gs => (x :: g) :: gs

/-- The whitespace characters stripped from line edges. -/
def wsChar (c : Char) : Bool :=
  c = ' ' ∨ c = '\r' ∨ c = '\t'

/-- Drop leading and trailing spaces (and carriage returns). -/
def trimChars (l : List Char) : List Char :=
  ((l.dropWhile wsChar).reverse.dropWhile wsChar).reverse

/-- Number of leading spaces of a line. -/
def indentOf (l : List Char) : Nat :=
  (l.takeWhile (· = ' ')).length

/-- Split a source text into (indent, trimmed content) pairs, dropping
blank lines and full-line comments, as `js-yaml` does on this
fragment. -/
def yamlLines (input : String) : List (Nat × List Char) :=
  (splitOnChar '\n' input.data).filterMap (fun line =>
    match trimChars line with
    | [] => none
    | '#' :: _ => none
    | content => some (indentOf line, content))

/-- Strip one layer of matching double or single quotes. -/
def unquoteChars (l : List Char) : List Char :=
  match l with
  | c :: rest =>
    if (c = '"' ∨ c = '\x27') ∧ rest ≠ [] ∧ rest.getLast? = some c then
      rest.dropLast
    else l
  | [] => l

/-- Parse an optionally signed decimal integer. -/
def parseInt? (l : List Char) : Option Int :=
  let digits := fun (ds : List Char) =>
    if ds ≠ [] ∧ ds.all (·.isDigit) then
      some (ds.foldl (fun acc d => acc * 10 + (d.toNat - 48)) (0 : Nat))
    else none
  match l with
  | '-' :: rest => (digits rest).map (fun n => -(n : Int))
  | _ => (digits l).map (fun n => (n : Int))

/-- YAML scalar resolution on the plain fragment: `null`, booleans and
integers get their typed value, everything else is a string. -/
def resolveScalar (l : List Char) : JVal :=
  if l = "null".data ∨ l = "~".data ∨ l = [] then .jnull
  else if l = "true".data then .jbool true
  else if l = "false".data then .jbool false
  else
    match parseInt? l with
    | some n => .jnum n
    | none => .jstr (String.mk (unquoteChars l))

/-- True for every character other than the colon. -/
def notColon (c : Char) : Bool :=
  !(c = ':')

/-- Split a `key: value` or `key:` line at its first colon into key
and (possibly empty) value; `none` for a line without a colon. -/
def splitKeyValue (l : List Char) : Option (String × List Char) :=
  let pre := l.takeWhile notColon
  match l.dropWhile notColon with
  | ':' :: rest => some (String.mk (trimChars pre), trimChars rest)
  | _ => none

/-- Parse a run of mapping entries at indentation `ind`; returns the
parsed fields and the remaining (dedented) lines.  `fuel` bounds the
recursion by the number of lines. -/
def parseEntries : Nat → Nat → List (Nat × List Char) →
    Option (List (String × JVal) × List (Nat × List Char))
  | 0, _, _ => none
  | _ + 1, _, [] => some ([], [])
  | fuel + 1, ind, (i, s) :: rest =>
    if i < ind then some ([], (i, s) :: rest)
    else if ind < i then none
    else
      match splitKeyValue s with
      | none => none
      | some (k, v) =>
        if v = [] then
          match rest with
          | (i2, _) :: _ =>
            if i < i2 then
              match parseEntries fuel i2 rest with
              | none => none
              | some (child, rest2) =>
                match parseEntries fuel ind rest2 with
                | none => none
                | some (sibs, rest3) => some ((k, .jobj child) :: sibs, rest3)
            else
              match parseEntries fuel ind rest with
              | none => none
              | some (sibs, rest2) => some ((k, .jnull) :: sibs, rest2)
          | [] => some ([(k, .jnull)], [])
        else
          match parseEntries fuel ind rest with
          | none => none
          | some (sibs, rest2) => some ((k, resolveScalar v) :: sibs, rest2)

/-- `yaml.load` on the fragment: the empty document is `undefined`
(as `js-yaml` returns for an empty string), a single line without a
colon is a scalar document, otherwise a block mapping.  Unsupported
shapes are `none`, which the embedding treats as a parse error. -/
def parseYaml (input : String) : Option JVal :=
  match yamlLines input with
  | [] => some .jundefined
  | (i, s) :: rest =>
    match splitKeyValue s with
    | none =>
      match rest with
      | [] => some (resolveScalar s)
      | _ => none
    | some _ =>
      match parseEntries (rest.length + 2) i ((i, s) :: rest) with
      | some (entries, []) => some (.jobj entries)
      | _ => none

/-- A string of `n` spaces. -/
def spaces (n : Nat) : String :=
  String.mk (List.replicate n ' ')

/-- True for strings whose plain (unquoted) form would resolve to a
different type on re-parse: the null/boolean words, the empty string,
and integer numerals.  `js-yaml`'s dumper quotes exactly such
type-ambiguous scalars so that a string stays a string. -/
def needsQuoting (s : String) : Bool :=
  s.data = [] ∨ s.data = "null".data ∨ s.data = "~".data ∨
  s.data = "true".data ∨ s.data = "false".data ∨ (parseInt? s.data).isSome

/-- `yaml.dump` of a scalar on the plain fragment; type-ambiguous
strings are single-quoted, as `js-yaml` emits them. -/
def scalarDump : JVal → String
  | .jnull => "null"
  | .jundefined => ""
  | .jbool b => if b then "true" else "false"
  | .jnum n => toString n
  | .jstr s => if needsQuoting s then "\x27" ++ s ++ "\x27" else s
  | .jarr _ => ""
  | .jobj _ => ""

mutual

/-- `yaml.dump` of the fields of a block mapping at indentation
`ind`: one `key: scalar` or `key:`-plus-indented-block line group per
field, two-space nesting, a newline per line — and, the point of the
byte-identity claim, no comments, since the parsed value holds
none. -/
def dumpFields (ind : Nat) : List (String × JVal) → String
  | [] => ""
  | (k, v) :: rest => dumpField ind k v ++ dumpFields ind rest

/-- One field of a dumped block mapping. -/
def dumpField (ind : Nat) (k : String) (v : JVal) : String :=
  match v with
  | .jobj fs => spaces ind ++ k ++ ":\n" ++ dumpFields (ind + 2) fs
  | scalar => spaces ind ++ k ++ ": " ++ scalarDump scalar ++ "\n"

end

/-- `yaml.dump` on the fragment: block mapping from the top, scalar
documents on one line. -/
def dumpYaml (v : JVal) : String :=
  match v with
  | .jobj fields => dumpFields 0 fields
  | scalar => scalarDump scalar ++ "\n"

example : parseYaml "image:\n  tag: v1\n" =
    some (.jobj [("image", .jobj [("tag", .jstr "v1")])]) := rfl

example : parseYaml "# note\nimage:\n  tag: v1\n" =
    some (.jobj [("image", .jobj [("tag", .jstr "v1")])]) := rfl

example : dumpYaml (.jobj [("image", .jobj [("tag", .jstr "v2")])]) =
    "image:\n  tag: v2\n" := rfl

/-! ## Effects, logs and the oracle of external call results -/

/-- One externally visible operation performed by the action: git and
filesystem operations, timed waits, and hosting REST API calls. -/
inductive Eff where
  | sshSetup
  | gitConfigUser (email name : String)
  | gitClone (repo dir : String)
  | gitAddRemote (remote repo : String)
  | gitCheckout (branch : String)
  | fsRead (path : String)
  | fsWrite (path content : String)
  | gitAddAll
  | gitCommit (msg : String)
  | gitPush (remote branch : String)
  | sleep (ms : Nat)
  | apiCreateLabel (org repo name color : String)
  | apiCreatePr (org repo head base title body : String)
  | apiAddLabels (org repo : String) (pr : Nat) (labels : List String)
  | apiGetPr (org repo : String) (pr : Nat)
  | apiMergePr (org repo : String) (pr : Nat)
deriving DecidableEq

/-- A log line: `core.info`, `core.warning`, `core.error` or
`core.setFailed`.  Only `failed` lines make the run report failure. -/
inductive Log where
  | info (s : String)
  | warning (s : String)
  | errorLine (s : String)
  | failed (s : String)
deriving DecidableEq

/-- True for `core.setFailed` lines. -/
def Log.isFailed : Log → Bool
  | .failed _ => true
  | _ => false

/-- A run reports success exactly when no `core.setFailed` line was
emitted. -/
def reportsSuccess (logs : List Log) : Bool :=
  logs.all (fun l => ! l.isFailed)

/-- A rejected hosting REST API call, as seen by the `catch` blocks:
octokit errors carry an HTTP `status`; transport-level failures carry
none. -/
structure ApiErr where
  status : Option Nat
  msg : String
deriving DecidableEq

/-- Results of the external calls a run performs, fixed up front: each
field models what the corresponding collaborator would answer.  Calls
made inside retry loops are indexed by the attempt number
(1-based). -/
structure Oracle where
  /-- `fs.readFile` of the values file. -/
  readFile : String → Except JsErr String
  /-- `fs.writeFile` of the patched file. -/
  writeResult : Except JsErr Unit
  /-- `git.push` on the given attempt. -/
  pushResult : Nat → Except JsErr Unit
  /-- `octokit.rest.issues.createLabel` for the given label name. -/
  labelResult : String → Except ApiErr Unit
  /-- `octokit.rest.pulls.create`: a resolved response carries
  (status, PR number); a rejection carries an `ApiErr`. -/
  prResult : Except ApiErr (Nat × Nat)
  /-- `octokit.rest.issues.addLabels`. -/
  addLabelsResult : Except ApiErr Unit
  /-- `octokit.rest.pulls.get` on the given polling attempt: the
  response's `data.mergeable` value (`true`/`false`/`null`). -/
  mergeableResult : Nat → Except ApiErr JVal
  /-- `octokit.rest.pulls.merge` on the given polling attempt. -/
  mergeResult : Nat → Except ApiErr Unit

/-- JavaScript truthiness, used by `if (isMergeable)`. -/
def jsTruthy : JVal → Bool
  | .jnull => false
  | .jundefined => false
  | .jbool b => b
  | .jnum n => n ≠ 0
  | .jstr s => s.data ≠ []
  | .jarr _ => true
  | .jobj _ => true

/-! ## Input resolution (`getRequiredInput`, src/index.js lines 13-30) -/

/-- `@actions/core.getInput(name, required: true)`: reads the
raw input value from the calling environment (the empty string when
unset), throws `Input required and not supplied: <name>` when it is
empty, and returns the trimmed value otherwise. -/
def coreGetInput (env : String → String) (name : String) : Except String String :=
  if env name = "" then .error ("Input required and not supplied: " ++ name)
  else .ok (String.mk (trimChars (env name).data))

/-- `getRequiredInput` of src/index.js: wraps `coreGetInput` and, when
the returned value is still falsy (a whitespace-only input trims to
the empty string), calls `core.setFailed` and throws the same
message.  The result is the thrown message or the value, plus any
`setFailed` log. -/
def getRequiredInput (env : String → String) (name : String) :
    Except String String × List Log :=
  match coreGetInput env name with
  | .error m => (.error m, [])
  | .ok v =>
      if v = "" then
        (.error ("Input required and not supplied: " ++ name),
         [.failed ("Input required and not supplied: " ++ name)])
      else (.ok v, [])

/-- The action's inputs (src/index.js lines 23-30). -/
structure Inputs where
  token : String
  filename : String
  tag : String
  service : String
  environment : String
  repo : String
  org : String
  key : String

/-- The required input names, in the order the module top level reads
them. -/
def requiredInputNames : List String :=
  ["token", "filename", "tag", "service", "environment", "repo", "org", "key"]

/-- The module top level of src/index.js lines 23-30: reads the eight
required inputs in order; the first missing one terminates the
program with its thrown message, before anything else runs. -/
def readInputs (env : String → String) : Except String Inputs := do
  let token ← (getRequiredInput env "token").1
  let filename ← (getRequiredInput env "filename").1
  let tag ← (getRequiredInput env "tag").1
  let service ← (getRequiredInput env "service").1
  let environment ← (getRequiredInput env "environment").1
  let repo ← (getRequiredInput env "repo").1
  let org ← (getRequiredInput env "org").1
  let key ← (getRequiredInput env "key").1
  pure ⟨token, filename, tag, service, environment, repo, org, key⟩

/-! ## Branch naming and repository name extraction -/

/-- The branch name template of src/index.js lines 94 and 267. -/
def branchNameOf (env service tag : String) : String :=
  "update-" ++ env ++ "-" ++ service ++ "-" ++ tag

/-- `getShortRepoName` (src/index.js lines 82-90): the regular
expression match `\/([^\/]+)\.git$` — the repository URL must end in
`.git` and have a nonempty, slash-free segment between its last slash
and that suffix; `none` models the setFailed-and-throw branch. -/
def getShortRepoName (repo : String) : Option String :=
  let d := repo.data
  if 4 ≤ d.length ∧ d.drop (d.length - 4) = ".git".data then
    let base := d.take (d.length - 4)
    match (splitOnChar '/' base).getLast? with
    | some seg =>
        if seg = [] then none
        else if splitOnChar '/' base = [seg] then none
        else some (String.mk seg)
    | none => none
  else none

example : getShortRepoName "git@github.com/acme/charts.git" = some "charts" := rfl
example : getShortRepoName "charts.git" = none := rfl
example : getShortRepoName "git@github.com/acme/charts" = none := rfl
example : getShortRepoName "git@github.com/acme/.git" = none := rfl

/-! ## The push retry (`async-retry`, src/index.js lines 131-142)

`asyncRetry` is called with `retries: 3, minTimeout: 5000` and an
`onRetry` warning callback.  The npm `retry` package underneath makes
the initial attempt plus up to `retries` further attempts, so up to
four in total; after each failed attempt that still has retries left
it invokes `onRetry` with the failed attempt's number.  When retries
are exhausted the error is rethrown (all attempts here fail with the
same error, so the package's most-frequent-error choice is that
error). -/

/-- One `git.push('upstream', branchName)` attempt cycle of the
`async-retry` wrapper: `attempt` is the 1-based attempt number,
`remaining` the retries still allowed after it. -/
def pushLoop (push : Nat → Except JsErr Unit) (branch : String) :
    Nat → Nat → Except JsErr Unit × List Eff × List Log
  | attempt, remaining =>
    match push attempt with
    | .ok _ => (.ok (), [.gitPush "upstream" branch], [])
    | .error e =>
      match remaining with
      | 0 => (.error e, [.gitPush "upstream" branch], [])
      | r + 1 =>
        let next := pushLoop push branch (attempt + 1) r
        (next.1, .gitPush "upstream" branch :: next.2.1,
         .warning ("Retry " ++ toString attempt ++ " due to error: " ++ e.message)
           :: next.2.2)

/-- `createTimeout` of the npm `retry` package at the options of
src/index.js: `minTimeout` 5000, default `factor` 2, unbounded
default `maxTimeout`; `async-retry` defaults `randomize` to true, so
`random` is `Math.random() + 1`, a value in `[1, 2)`.  The delay
before retry number `attempt + 1` is
`Math.round(random * 5000 * 2 ^ attempt)` milliseconds. -/
def createTimeout (random : ℚ) (attempt : Nat) : ℤ :=
  round (random * 5000 * 2 ^ attempt)

/-! ## `commitAndPushChanges` (src/index.js lines 92-143) -/

/-- `commitAndPushChanges`: checks out the derived branch, reads and
parses the values file, short-circuits when `image.tag` already
equals the requested tag, and otherwise rewrites the file, commits
and pushes with retry.  Returns the thrown error or unit, the effect
list and the log list. -/
def commitAndPushChanges (o : Oracle) (filename tag service tmpdir env : String) :
    Except JsErr Unit × List Eff × List Log :=
  let filePath := tmpdir ++ "/" ++ filename
  let branchName := branchNameOf env service tag
  let e0 : List Eff := [.gitCheckout branchName, .fsRead filePath]
  match o.readFile filePath with
  | .error e =>
      (.error e, e0,
       [.failed ("Failed to locate " ++ filePath ++ ". Chart missing or wrong environment?")])
  | .ok fileContent =>
    match parseYaml fileContent with
    | none =>
        (.error (.jsError ("YAML parse error in " ++ filePath)), e0,
         [.failed ("Failed to parse YAML from file " ++ filePath ++ ".")])
    | some data =>
      match derefImageTag data with
      | .error e => (.error e, e0, [])
      | .ok curTag =>
        if strictEqStr curTag tag then
          (.ok (), e0, [.warning ("Tag already set, " ++ tag)])
        else
          let newData := setImageTag data tag
          let newContent := dumpYaml newData
          match o.writeResult with
          | .error e =>
              (.error e, e0 ++ [.fsWrite filePath newContent],
               [.failed ("Failed to write to file " ++ filePath ++ ". Error: " ++ e.message)])
          | .ok _ =>
            let commitMsg := "chore: updating " ++ env ++ "-" ++ service ++ " with " ++ tag
            let p := pushLoop o.pushResult branchName 1 3
            (p.1,
             e0 ++ [.fsWrite filePath newContent, .gitAddAll, .gitCommit commitMsg] ++ p.2.1,
             p.2.2)

/-! ## Hosting API wrappers (src/index.js lines 145-220) -/

/-- `createLabel`: any resolved response is success; a rejection with
status 422 ("already exists") is also success; any other rejection is
logged with `core.error` and yields `false`.  No branch calls
`core.setFailed`. -/
def createLabel (resp : Except ApiErr Unit) (labelName : String) : Bool × List Log :=
  match resp with
  | .ok _ => (true, [.info ("✅ Label \x27" ++ labelName ++ "\x27 created successfully.")])
  | .error e =>
      if e.status = some 422 then
        (true, [.info ("🚨 Label \x27" ++ labelName ++ "\x27 already exists.")])
      else
        (false, [.errorLine ("💩 Failed to create label \x27" ++ labelName ++ "\x27. Error: " ++ e.msg)])

/-- Models the hosting service's label store, an external collaborator
consumed as a black box: creating a label that already exists is
rejected with HTTP 422 (GitHub's "Validation Failed"), otherwise the
label is added. -/
def labelApiCall (existing : List String) (labelName : String) :
    Except ApiErr Unit × List String :=
  if labelName ∈ existing then
    (.error ⟨some 422, "Validation Failed"⟩, existing)
  else
    (.ok (), labelName :: existing)

/-- `addLabelsToPullRequest`: failures are logged with `core.error`
and swallowed. -/
def addLabelsToPullRequest (resp : Except ApiErr Unit) (prNumber : Nat) : List Log :=
  match resp with
  | .ok _ => [.info ("✅ Labels added to pull request " ++ toString prNumber)]
  | .error e =>
      [.errorLine ("Failed to add labels to pull request " ++ toString prNumber ++
        ". Error: " ++ e.msg)]

/-- `createPullRequest`: a resolved response with status 201 yields
the PR number (the success log's response URL is omitted from the
model); a resolved response with any other status throws inside the
`try`, which its own `catch` turns into an error log and `null`; a
rejection with status 422 is logged as "already exists"; every other
rejection is logged with `core.error`.  All failure shapes yield
`none`, and nothing here throws out or calls `core.setFailed`. -/
def createPullRequest (resp : Except ApiErr (Nat × Nat)) : Option Nat × List Log :=
  match resp with
  | .ok (status, number) =>
      if status = 201 then
        (some number, [.info "✅ Pull request created successfully"])
      else
        (none, [.errorLine ("💩 Failed to create pull request. Error: Unexpected status code: " ++
          toString status)])
  | .error e =>
      if e.status = some 422 then (none, [.info "🚨 Pull request already exists"])
      else (none, [.errorLine ("💩 Failed to create pull request. Error: " ++ e.msg)])

/-- `checkPullRequestMergeable`: returns the response's
`data.mergeable` value; a failed API call is logged with `core.error`
and converted to `false` rather than propagated. -/
def checkPullRequestMergeable (resp : Except ApiErr JVal) : JVal × List Log :=
  match resp with
  | .ok v => (v, [])
  | .error e =>
      (.jbool false, [.errorLine ("Failed to check PR mergeable status. Error: " ++ e.msg)])

/-! ## `mergePullRequest` (src/index.js lines 222-255) -/

/-- The distinct fatal message after exhausting the 10 polling
attempts. -/
def mergeFailMsg : String := "Failed to merge PR after 10 attempts."

/-- The polling loop body of `mergePullRequest`: at each attempt it
checks mergeability; when truthy it tries to merge (a merge failure
is logged and the loop continues), otherwise it logs and, before any
attempt but the last, sleeps the fixed 10000 ms delay.  `fuel` is the
number of attempts left (the loop bound `maxAttempts = 10`); running
out sets the distinct failure message and throws it. -/
def mergeAttempts (o : Oracle) (org repo : String) (pr : Nat) :
    Nat → Nat → Except JsErr Unit × List Eff × List Log
  | _, 0 => (.error (.jsError mergeFailMsg), [], [.failed mergeFailMsg])
  | attempt, fuel + 1 =>
    let hd := Log.info ("Attempt " ++ toString attempt ++ ": Checking if PR #" ++
      toString pr ++ " is mergeable")
    let c := checkPullRequestMergeable (o.mergeableResult attempt)
    let waitEffs : List Eff := if attempt < 10 then [.sleep 10000] else []
    let waitLogs : List Log := if attempt < 10 then [.info "Will retry in 10 seconds..."] else []
    if jsTruthy c.1 then
      match o.mergeResult attempt with
      | .ok _ =>
          (.ok (), [.apiGetPr org repo pr, .apiMergePr org repo pr],
           hd :: c.2 ++ [.info "🚀 Pull request merged successfully"])
      | .error e =>
          let next := mergeAttempts o org repo pr (attempt + 1) fuel
          (next.1, .apiGetPr org repo pr :: .apiMergePr org repo pr :: waitEffs ++ next.2.1,
           hd :: c.2 ++ [.errorLine ("💩 Failed to merge PR. Error: " ++ e.msg)] ++
             waitLogs ++ next.2.2)
    else
      let next := mergeAttempts o org repo pr (attempt + 1) fuel
      (next.1, .apiGetPr org repo pr :: waitEffs ++ next.2.1,
       hd :: c.2 ++ [.info "🚨 PR is not mergeable yet."] ++ waitLogs ++ next.2.2)

/-- `mergePullRequest`: the bounded polling loop, 10 attempts starting
at attempt 1. -/
def mergePullRequest (o : Oracle) (org repo : String) (pr : Nat) :
    Except JsErr Unit × List Eff × List Log :=
  mergeAttempts o org repo pr 1 10

/-! ## `gitCommitAndCreatePr` (src/index.js lines 257-289) and `run` -/

/-- The pull request title template of src/index.js line 276. -/
def prTitle (env service tag : String) : String :=
  "chore: update " ++ env ++ "-" ++ service ++ " to tag " ++ tag

/-- The pull request body template of src/index.js line 277. -/
def prBody (filename tag : String) : String :=
  "🚀 Updating " ++ filename ++ " to use tag " ++ tag

/-- `gitCommitAndCreatePr`: provisions credentials, clones, calls
`commitAndPushChanges`, then — unconditionally, even when the tag was
already current — creates the three labels and the pull request; only
when a PR number came back does it add labels and start merge
polling.  Its `catch` turns any thrown error into a
`core.setFailed('Error in gitCommitAndCreatePr: ...')` line and
rethrows. -/
def gitCommitAndCreatePr (o : Oracle) (filename repo tag service org env tmpdir : String) :
    Except JsErr Unit × List Eff × List Log :=
  let preLogs : List Log := [.info ("⏳ Checking out " ++ repo)]
  let preEffs : List Eff := [.sshSetup, .gitConfigUser "jcputter@gmail.com" "JC Putter",
    .gitClone repo tmpdir, .gitAddRemote "upstream" repo]
  let c := commitAndPushChanges o filename tag service tmpdir env
  match c.1 with
  | .error e =>
      (.error e, preEffs ++ c.2.1,
       preLogs ++ c.2.2 ++ [.failed ("Error in gitCommitAndCreatePr: " ++ e.message)])
  | .ok _ =>
    match getShortRepoName repo with
    | none =>
        (.error (.jsError "Unable to extract repository name."), preEffs ++ c.2.1,
         preLogs ++ c.2.2 ++ [.failed "Unable to extract repository name.",
           .failed "Error in gitCommitAndCreatePr: Unable to extract repository name."])
    | some shortRepoName =>
      let l1 := createLabel (o.labelResult "deployment") "deployment"
      let l2 := createLabel (o.labelResult env) env
      let l3 := createLabel (o.labelResult service) service
      let labelEffs : List Eff := [.apiCreateLabel org shortRepoName "deployment" "009800",
        .apiCreateLabel org shortRepoName env "FFFFFF",
        .apiCreateLabel org shortRepoName service "0075ca"]
      let branchName := branchNameOf env service tag
      let pr := createPullRequest o.prResult
      let prEffs : List Eff := [.apiCreatePr org shortRepoName branchName "main"
        (prTitle env service tag) (prBody filename tag)]
      match pr.1 with
      | none =>
          (.ok (), preEffs ++ c.2.1 ++ labelEffs ++ prEffs,
           preLogs ++ c.2.2 ++ l1.2 ++ l2.2 ++ l3.2 ++ pr.2)
      | some prNumber =>
        let al := addLabelsToPullRequest o.addLabelsResult prNumber
        let alEffs : List Eff := [.apiAddLabels org shortRepoName prNumber
          ["deployment", env, service]]
        let m := mergePullRequest o org shortRepoName prNumber
        match m.1 with
        | .ok _ =>
            (.ok (), preEffs ++ c.2.1 ++ labelEffs ++ prEffs ++ alEffs ++ m.2.1,
             preLogs ++ c.2.2 ++ l1.2 ++ l2.2 ++ l3.2 ++ pr.2 ++ al ++ m.2.2)
        | .error e =>
            (.error e, preEffs ++ c.2.1 ++ labelEffs ++ prEffs ++ alEffs ++ m.2.1,
             preLogs ++ c.2.2 ++ l1.2 ++ l2.2 ++ l3.2 ++ pr.2 ++ al ++ m.2.2 ++
               [.failed ("Error in gitCommitAndCreatePr: " ++ e.message)])

/-- `run` (src/index.js lines 291-300): extracts the short repository
name (its result is unused, but a malformed URL throws here first),
calls `gitCommitAndCreatePr` and converts any thrown error into a
final `core.setFailed('Action failed: ...')`. -/
def runAction (o : Oracle) (inp : Inputs) (tmpdir : String) : List Eff × List Log :=
  match getShortRepoName inp.repo with
  | none =>
      ([], [.failed "Unable to extract repository name.",
            .failed "Action failed: Unable to extract repository name."])
  | some _ =>
    let g := gitCommitAndCreatePr o inp.filename inp.repo inp.tag inp.service inp.org
      inp.environment tmpdir
    match g.1 with
    | .ok _ => (g.2.1, g.2.2)
    | .error e => (g.2.1, g.2.2 ++ [.failed ("Action failed: " ++ e.message)])

/-- The whole program: the module top level reads the eight inputs
before anything else; a missing one terminates with its thrown
message and an empty effect trace (no filesystem or network activity
has happened yet), otherwise `run` executes. -/
def program (env : String → String) (o : Oracle) (tmpdir : String) :
    Except String Unit × List Eff × List Log :=
  match readInputs env with
  | .error m => (.error m, [], [])
  | .ok inp =>
      let r := runAction o inp tmpdir
      (.ok (), r.1, r.2)

/-! ## Effect classifiers used by the claims -/

/-- True for `git commit` effects. -/
def Eff.isCommit : Eff → Bool
  | .gitCommit _ => true
  | _ => false

/-- True for `git push` effects. -/
def Eff.isPush : Eff → Bool
  | .gitPush _ _ => true
  | _ => false

/-- True for file write effects. -/
def Eff.isWrite : Eff → Bool
  | .fsWrite _ _ => true
  | _ => false

/-- True for label creation API calls. -/
def Eff.isCreateLabel : Eff → Bool
  | .apiCreateLabel _ _ _ _ => true
  | _ => false

/-- True for pull request creation API calls. -/
def Eff.isCreatePr : Eff → Bool
  | .apiCreatePr _ _ _ _ _ _ => true
  | _ => false

/-- True for PR labeling API calls. -/
def Eff.isAddLabels : Eff → Bool
  | .apiAddLabels _ _ _ _ => true
  | _ => false

/-- True for PR merge API calls. -/
def Eff.isMerge : Eff → Bool
  | .apiMergePr _ _ _ => true
  | _ => false

/-- True for PR polling (get) API calls. -/
def Eff.isGetPr : Eff → Bool
  | .apiGetPr _ _ _ => true
  | _ => false

/-- No effect in the list satisfies the classifier. -/
def noEff (p : Eff → Bool) (effs : List Eff) : Bool :=
  effs.all (fun e => ! p e)

/-- A convenient fully successful oracle to build concrete runs
from. -/
def oracleBase : Oracle where
  readFile := fun _ => .ok "image:\n  tag: v1\n"
  writeResult := .ok ()
  pushResult := fun _ => .ok ()
  labelResult := fun _ => .ok ()
  prResult := .ok (201, 7)
  addLabelsResult := .ok ()
  mergeableResult := fun _ => .ok (.jbool true)
  mergeResult := fun _ => .ok ()

/-! ## Claim C1 -/

/-- Claim C1 as stated, at a given run's effects and logs: no commit,
no push, and no pull-request operation (label creation, PR creation,
labeling, merging all skipped), and the run reports success. -/
def c1Statement (effs : List Eff) (logs : List Log) : Prop :=
  noEff Eff.isCommit effs = true ∧ noEff Eff.isPush effs = true ∧
  noEff Eff.isCreateLabel effs = true ∧ noEff Eff.isCreatePr effs = true ∧
  noEff Eff.isAddLabels effs = true ∧ noEff Eff.isMerge effs = true ∧
  reportsSuccess logs = true

/-- A run whose values file already carries the requested tag `v1`:
the hosting API answers the (doomed, branch never pushed) PR creation
with 422. -/
def c1Oracle : Oracle :=
  { oracleBase with prResult := .error ⟨some 422, "Validation Failed"⟩ }

/-- The concrete C1 run. -/
def c1Run : Except JsErr Unit × List Eff × List Log :=
  gitCommitAndCreatePr c1Oracle "values.yaml" "git@github.com/acme/charts.git"
    "v1" "svc" "acme" "dev" "/work"

/-- Counterexample to claim C1: in a run whose parsed `image.tag`
already equals the requested tag, commit and push are indeed skipped
and the run reports success, but label creation and PR creation are
NOT skipped — `gitCommitAndCreatePr` proceeds to them unconditionally
— so the claim as stated is false at this input. -/
theorem claim_C1_counterexample :
    ¬ c1Statement c1Run.2.1 c1Run.2.2 ∧
    noEff Eff.isCommit c1Run.2.1 = true ∧
    noEff Eff.isPush c1Run.2.1 = true ∧
    noEff Eff.isCreateLabel c1Run.2.1 = false ∧
    noEff Eff.isCreatePr c1Run.2.1 = false ∧
    reportsSuccess c1Run.2.2 = true := by
  unfold c1Statement
  decide

/-- `reportsSuccess` distributes over list append. -/
theorem reportsSuccess_append (a b : List Log) :
    reportsSuccess (a ++ b) = (reportsSuccess a && reportsSuccess b) := by
  simp [reportsSuccess, List.all_append]

/-- `reportsSuccess` ignores the non-fatal log constructors. -/
theorem reportsSuccess_info (s : String) (rest : List Log) :
    reportsSuccess (Log.info s :: rest) = reportsSuccess rest := by
  simp [reportsSuccess, Log.isFailed]

/-- `reportsSuccess` ignores warnings. -/
theorem reportsSuccess_warning (s : String) (rest : List Log) :
    reportsSuccess (Log.warning s :: rest) = reportsSuccess rest := by
  simp [reportsSuccess, Log.isFailed]

/-- `reportsSuccess` ignores `core.error` lines. -/
theorem reportsSuccess_errorLine (s : String) (rest : List Log) :
    reportsSuccess (Log.errorLine s :: rest) = reportsSuccess rest := by
  simp [reportsSuccess, Log.isFailed]

/-- The empty log reports success. -/
theorem reportsSuccess_nil : reportsSuccess [] = true := rfl

/-- `createLabel` never emits a `core.setFailed` line. -/
theorem createLabel_no_failed (r : Except ApiErr Unit) (n : String) :
    reportsSuccess (createLabel r n).2 = true := by
  cases r with
  | ok v => simp [createLabel, reportsSuccess, Log.isFailed]
  | error e =>
      by_cases h : e.status = some 422 <;>
        simp [createLabel, h, reportsSuccess, Log.isFailed]

/-- `createPullRequest` never emits a `core.setFailed` line. -/
theorem createPullRequest_no_failed (r : Except ApiErr (Nat × Nat)) :
    reportsSuccess (createPullRequest r).2 = true := by
  cases r with
  | ok p =>
      obtain ⟨s, n⟩ := p
      by_cases h : s = 201 <;> simp [createPullRequest, h, reportsSuccess, Log.isFailed]
  | error e =>
      by_cases h : e.status = some 422 <;>
        simp [createPullRequest, h, reportsSuccess, Log.isFailed]

/-- Whenever the PR-creation call does not resolve with status 201,
`createPullRequest` yields `null`. -/
theorem createPullRequest_none (r : Except ApiErr (Nat × Nat))
    (h : ∀ n, r ≠ .ok (201, n)) : (createPullRequest r).1 = none := by
  cases r with
  | ok p =>
      obtain ⟨s, n⟩ := p
      have hs : ¬ s = 201 := fun hs => h n (by rw [hs])
      simp [createPullRequest, hs]
  | error e =>
      by_cases h2 : e.status = some 422 <;> simp [createPullRequest, h2]

/-- The short-circuit of `commitAndPushChanges`: when the parsed
document's `image.tag` strictly equals the requested tag, the
function returns after the checkout and the read, with only the
"Tag already set" warning — no write, no commit, no push. -/
theorem commitAndPushChanges_short_circuit (o : Oracle)
    (filename tag service tmpdir env content : String) (data cur : JVal)
    (h1 : o.readFile (tmpdir ++ "/" ++ filename) = .ok content)
    (h2 : parseYaml content = some data)
    (h3 : derefImageTag data = .ok cur)
    (h4 : strictEqStr cur tag = true) :
    commitAndPushChanges o filename tag service tmpdir env =
      (.ok (),
       [.gitCheckout (branchNameOf env service tag), .fsRead (tmpdir ++ "/" ++ filename)],
       [.warning ("Tag already set, " ++ tag)]) := by
  simp only [commitAndPushChanges, h1, h2, h3, h4, if_true]

/-- Amended claim C1: in every run in which the parsed values
document's `image.tag` already strictly equals the requested tag, no
file write, no commit and no push occur and the run reports success
(provided the — necessarily doomed, since the branch was never pushed
— PR-creation call does not resolve with status 201, in which case PR
labeling and merging are also skipped); however, label creation and
PR creation are still attempted, not skipped. -/
theorem claim_C1 (o : Oracle)
    (filename repo tag service org env tmpdir content shortName : String)
    (data cur : JVal)
    (h1 : o.readFile (tmpdir ++ "/" ++ filename) = .ok content)
    (h2 : parseYaml content = some data)
    (h3 : derefImageTag data = .ok cur)
    (h4 : strictEqStr cur tag = true)
    (h5 : getShortRepoName repo = some shortName)
    (h6 : ∀ n, o.prResult ≠ .ok (201, n)) :
    (gitCommitAndCreatePr o filename repo tag service org env tmpdir).1 = .ok () ∧
    noEff Eff.isWrite (gitCommitAndCreatePr o filename repo tag service org env tmpdir).2.1 = true ∧
    noEff Eff.isCommit (gitCommitAndCreatePr o filename repo tag service org env tmpdir).2.1 = true ∧
    noEff Eff.isPush (gitCommitAndCreatePr o filename repo tag service org env tmpdir).2.1 = true ∧
    noEff Eff.isAddLabels (gitCommitAndCreatePr o filename repo tag service org env tmpdir).2.1 = true ∧
    noEff Eff.isMerge (gitCommitAndCreatePr o filename repo tag service org env tmpdir).2.1 = true ∧
    reportsSuccess (gitCommitAndCreatePr o filename repo tag service org env tmpdir).2.2 = true ∧
    noEff Eff.isCreateLabel (gitCommitAndCreatePr o filename repo tag service org env tmpdir).2.1 = false ∧
    noEff Eff.isCreatePr (gitCommitAndCreatePr o filename repo tag service org env tmpdir).2.1 = false := by
  have hc := commitAndPushChanges_short_circuit o filename tag service tmpdir env content
    data cur h1 h2 h3 h4
  have hpr := createPullRequest_none o.prResult h6
  simp only [gitCommitAndCreatePr, hc, h5, hpr]
  refine ⟨by trivial, ?_, ?_, ?_, ?_, ?_, ?_, ?_, ?_⟩
  · simp [noEff, Eff.isWrite]
  · simp [noEff, Eff.isCommit]
  · simp [noEff, Eff.isPush]
  · simp [noEff, Eff.isAddLabels]
  · simp [noEff, Eff.isMerge]
  · simp [reportsSuccess_append, reportsSuccess_info, reportsSuccess_warning,
      reportsSuccess_nil, createLabel_no_failed, createPullRequest_no_failed]
  · simp [noEff, Eff.isCreateLabel]
  · simp [noEff, Eff.isCreatePr]

/-- Witness for the amended claim C1 at the concrete C1 run. -/
theorem claim_C1_witness :
    (gitCommitAndCreatePr c1Oracle "values.yaml" "git@github.com/acme/charts.git"
      "v1" "svc" "acme" "dev" "/work").1 = .ok () ∧
    noEff Eff.isWrite c1Run.2.1 = true ∧
    noEff Eff.isCommit c1Run.2.1 = true ∧
    noEff Eff.isPush c1Run.2.1 = true ∧
    noEff Eff.isAddLabels c1Run.2.1 = true ∧
    noEff Eff.isMerge c1Run.2.1 = true ∧
    reportsSuccess c1Run.2.2 = true ∧
    noEff Eff.isCreateLabel c1Run.2.1 = false ∧
    noEff Eff.isCreatePr c1Run.2.1 = false :=
  claim_C1 c1Oracle "values.yaml" "git@github.com/acme/charts.git" "v1" "svc" "acme"
    "dev" "/work" "image:\n  tag: v1\n" "charts"
    (.jobj [("image", .jobj [("tag", .jstr "v1")])]) (.jstr "v1")
    rfl rfl rfl rfl rfl (fun n h => by simp [c1Oracle, oracleBase] at h)

/-! ## Claim C8 -/

/-- Claim C8: the branch name is the pure deterministic function
`update-<environment>-<service>-<tag>` of (environment, service,
tag) — identical inputs trivially give the identical name — and
`commitAndPushChanges` checks out exactly that branch, whatever the
oracle answers. -/
theorem claim_C8 :
    (∀ env service tag, branchNameOf env service tag =
      "update-" ++ env ++ "-" ++ service ++ "-" ++ tag) ∧
    (∀ (o : Oracle) (filename tag service tmpdir env : String),
      (commitAndPushChanges o filename tag service tmpdir env).2.1.head? =
        some (.gitCheckout (branchNameOf env service tag))) := by
  refine ⟨fun env service tag => rfl, fun o filename tag service tmpdir env => ?_⟩
  rcases hr : o.readFile (tmpdir ++ "/" ++ filename) with e | content
  · simp [commitAndPushChanges, hr]
  · rcases hp : parseYaml content with _ | data
    · simp [commitAndPushChanges, hr, hp]
    · rcases hd : derefImageTag data with e | cur
      · simp [commitAndPushChanges, hr, hp, hd]
      · by_cases hs : strictEqStr cur tag = true
        · simp [commitAndPushChanges, hr, hp, hd, hs]
        · rcases hw : o.writeResult with e | u
          · simp [commitAndPushChanges, hr, hp, hd, hs, hw]
          · simp [commitAndPushChanges, hr, hp, hd, hs, hw]

/-! ## Claim C7 -/

/-- The thrown message of `@actions/core.getInput` for a missing
required input. -/
def inputMsg (name : String) : String :=
  "Input required and not supplied: " ++ name

/-- A missing input makes `getRequiredInput` throw its named
message. -/
theorem getRequiredInput_missing (env : String → String) (name : String)
    (h : env name = "") : (getRequiredInput env name).1 = .error (inputMsg name) := by
  simp [getRequiredInput, coreGetInput, h, inputMsg]

/-- A supplied input whose trimmed value is nonempty makes
`getRequiredInput` return it. -/
theorem getRequiredInput_ok (env : String → String) (name : String)
    (h1 : env name ≠ "") (h2 : String.mk (trimChars (env name).data) ≠ "") :
    (getRequiredInput env name).1 = .ok (String.mk (trimChars (env name).data)) := by
  simp [getRequiredInput, coreGetInput, h1, h2]

/-- Claim C7: for every required input parameter, a run of the
program in which that parameter is missing (and the others are
supplied with nonblank values) terminates with the thrown message
naming exactly that parameter, with an empty effect trace — no
filesystem or network activity — and the eight messages are pairwise
distinct. -/
theorem claim_C7 :
    (∀ (env : String → String) (o : Oracle) (tmpdir name : String),
      name ∈ requiredInputNames →
      env name = "" →
      (∀ q ∈ requiredInputNames, q ≠ name →
        env q ≠ "" ∧ String.mk (trimChars (env q).data) ≠ "") →
      program env o tmpdir = (.error (inputMsg name), [], [])) ∧
    (∀ p ∈ requiredInputNames, ∀ q ∈ requiredInputNames,
      p ≠ q → inputMsg p ≠ inputMsg q) := by
  constructor
  · intro env o tmpdir name hmem hmiss hrest
    have hthrow := getRequiredInput_missing env name hmiss
    fin_cases hmem <;>
    · simp only [program, readInputs, bind, Except.bind, hthrow]
      repeat'
        first
        | rfl
        | rw [getRequiredInput_ok env _ (hrest _ (by decide) (by decide)).1
            (hrest _ (by decide) (by decide)).2]
  · decide

/-- Witness for claim C7: the run with only `tag` missing terminates
with the message naming `tag` and performs no effect. -/
theorem claim_C7_witness :
    program (fun n => if n = "tag" then "" else "x") oracleBase "/work" =
      (.error (inputMsg "tag"), [], []) := by
  apply claim_C7.1 (fun n => if n = "tag" then "" else "x") oracleBase "/work" "tag"
    (by decide) (by decide)
  decide

/-! ## Claim C6 -/

/-- Claim C6: label creation is idempotent and never fatal.  After
any first `createLabel` call through the hosting API's label store, a
second call with the same name succeeds (the store's 422 conflict is
treated as success); `createLabel` never emits a fatal log whatever
the API answers; and the orchestrator proceeds to the PR-creation
call no matter what the three label calls returned. -/
theorem claim_C6 :
    (∀ (existing : List String) (labelName : String),
      (createLabel
        (labelApiCall (labelApiCall existing labelName).2 labelName).1 labelName).1 = true ∧
      reportsSuccess (createLabel
        (labelApiCall (labelApiCall existing labelName).2 labelName).1 labelName).2 = true) ∧
    (∀ (r : Except ApiErr Unit) (n : String),
      reportsSuccess (createLabel r n).2 = true) ∧
    (∀ (o : Oracle)
      (filename repo tag service org env tmpdir content shortName : String)
      (data cur : JVal),
      o.readFile (tmpdir ++ "/" ++ filename) = .ok content →
      parseYaml content = some data →
      derefImageTag data = .ok cur →
      strictEqStr cur tag = true →
      getShortRepoName repo = some shortName →
      Eff.apiCreatePr org shortName (branchNameOf env service tag) "main"
          (prTitle env service tag) (prBody filename tag) ∈
        (gitCommitAndCreatePr o filename repo tag service org env tmpdir).2.1) := by
  refine ⟨?_, createLabel_no_failed, ?_⟩
  · intro existing labelName
    by_cases h : labelName ∈ existing
    · simp [labelApiCall, h, createLabel, reportsSuccess, Log.isFailed]
    · simp [labelApiCall, h, createLabel, reportsSuccess, Log.isFailed]
  · intro o filename repo tag service org env tmpdir content shortName data cur
      h1 h2 h3 h4 h5
    have hc := commitAndPushChanges_short_circuit o filename tag service tmpdir env
      content data cur h1 h2 h3 h4
    simp only [gitCommitAndCreatePr, hc, h5]
    rcases hpr : (createPullRequest o.prResult).1 with _ | prn
    · simp [hpr]
    · simp only [hpr]
      rcases hm : (mergePullRequest o org shortName prn).1 with e | u <;>
        simp [hm, List.mem_append]

/-- Witness for claim C6: a fresh store, then a run whose three label
calls all fail with HTTP 500 still reaches the PR-creation call. -/
theorem claim_C6_witness :
    (createLabel (labelApiCall (labelApiCall [] "deployment").2 "deployment").1
      "deployment").1 = true ∧
    Eff.apiCreatePr "acme" "charts" (branchNameOf "dev" "svc" "v1") "main"
        (prTitle "dev" "svc" "v1") (prBody "values.yaml" "v1") ∈
      (gitCommitAndCreatePr
        { c1Oracle with labelResult := fun _ => .error ⟨some 500, "boom"⟩ }
        "values.yaml" "git@github.com/acme/charts.git" "v1" "svc" "acme" "dev"
        "/work").2.1 :=
  ⟨(claim_C6.1 [] "deployment").1,
   claim_C6.2.2 { c1Oracle with labelResult := fun _ => .error ⟨some 500, "boom"⟩ }
     "values.yaml" "git@github.com/acme/charts.git" "v1" "svc" "acme" "dev" "/work"
     "image:\n  tag: v1\n" "charts"
     (.jobj [("image", .jobj [("tag", .jstr "v1")])]) (.jstr "v1")
     rfl rfl rfl rfl rfl⟩

/-! ## Claim C5 -/

/-- The successful-first-push instance of the `async-retry` wrapper. -/
theorem pushLoop_first_ok (push : Nat → Except JsErr Unit) (branch : String)
    (h : push 1 = .ok ()) :
    pushLoop push branch 1 3 = (.ok (), [.gitPush "upstream" branch], []) := by
  simp [pushLoop, h]

/-- The rewrite path of `commitAndPushChanges`: when the parsed
`image.tag` differs from the requested tag and the write succeeds,
the function writes the re-serialised document, stages, commits, and
runs the push retry loop. -/
theorem commitAndPushChanges_update (o : Oracle)
    (filename tag service tmpdir env content : String) (data cur : JVal)
    (h1 : o.readFile (tmpdir ++ "/" ++ filename) = .ok content)
    (h2 : parseYaml content = some data)
    (h3 : derefImageTag data = .ok cur)
    (h4 : strictEqStr cur tag = false)
    (h5 : o.writeResult = .ok ()) :
    commitAndPushChanges o filename tag service tmpdir env =
      ((pushLoop o.pushResult (branchNameOf env service tag) 1 3).1,
       [.gitCheckout (branchNameOf env service tag), .fsRead (tmpdir ++ "/" ++ filename),
        .fsWrite (tmpdir ++ "/" ++ filename) (dumpYaml (setImageTag data tag)),
        .gitAddAll,
        .gitCommit ("chore: updating " ++ env ++ "-" ++ service ++ " with " ++ tag)] ++
         (pushLoop o.pushResult (branchNameOf env service tag) 1 3).2.1,
       (pushLoop o.pushResult (branchNameOf env service tag) 1 3).2.2) := by
  simp only [commitAndPushChanges, h1, h2, h3, h4, h5, Bool.false_eq_true, if_false]
  rfl

/-- Claim C5: when PR creation is rejected with status 422 ("already
exists"), the run logs it and finishes successfully — no crash — and,
since no PR number came back, PR labeling and merge polling are
skipped; moreover every other PR-creation failure likewise yields
`null` instead of crashing. -/
theorem claim_C5 (o : Oracle)
    (filename repo tag service org env tmpdir content shortName m : String)
    (data cur : JVal)
    (h1 : o.readFile (tmpdir ++ "/" ++ filename) = .ok content)
    (h2 : parseYaml content = some data)
    (h3 : derefImageTag data = .ok cur)
    (h4 : strictEqStr cur tag = false)
    (h5 : o.writeResult = .ok ())
    (h6 : o.pushResult 1 = .ok ())
    (h7 : getShortRepoName repo = some shortName)
    (h8 : o.prResult = .error ⟨some 422, m⟩) :
    (gitCommitAndCreatePr o filename repo tag service org env tmpdir).1 = .ok () ∧
    reportsSuccess (gitCommitAndCreatePr o filename repo tag service org env tmpdir).2.2 = true ∧
    Log.info "🚨 Pull request already exists" ∈
      (gitCommitAndCreatePr o filename repo tag service org env tmpdir).2.2 ∧
    noEff Eff.isAddLabels (gitCommitAndCreatePr o filename repo tag service org env tmpdir).2.1 = true ∧
    noEff Eff.isGetPr (gitCommitAndCreatePr o filename repo tag service org env tmpdir).2.1 = true ∧
    noEff Eff.isMerge (gitCommitAndCreatePr o filename repo tag service org env tmpdir).2.1 = true ∧
    (∀ (r : Except ApiErr (Nat × Nat)), (∀ n, r ≠ .ok (201, n)) →
      ((createPullRequest r).1 = none ∧ reportsSuccess (createPullRequest r).2 = true)) := by
  have hc := commitAndPushChanges_update o filename tag service tmpdir env content
    data cur h1 h2 h3 h4 h5
  rw [pushLoop_first_ok o.pushResult (branchNameOf env service tag) h6] at hc
  have hpr : createPullRequest o.prResult = (none, [.info "🚨 Pull request already exists"]) := by
    simp [h8, createPullRequest]
  simp only [gitCommitAndCreatePr, hc, h7, hpr]
  refine ⟨by trivial, ?_, ?_, ?_, ?_, ?_,
    fun r hr => ⟨createPullRequest_none r hr, createPullRequest_no_failed r⟩⟩
  · simp [reportsSuccess_append, reportsSuccess_info, reportsSuccess_warning,
      reportsSuccess_nil, createLabel_no_failed]
  · simp
  · simp [noEff, Eff.isAddLabels]
  · simp [noEff, Eff.isGetPr]
  · simp [noEff, Eff.isMerge]

/-- Witness for claim C5 at a concrete run whose PR creation is
rejected with 422. -/
theorem claim_C5_witness :
    (gitCommitAndCreatePr { oracleBase with prResult := .error ⟨some 422, "exists"⟩ }
      "values.yaml" "git@github.com/acme/charts.git" "v2" "svc" "acme" "dev" "/work").1 =
        .ok () ∧
    reportsSuccess (gitCommitAndCreatePr
      { oracleBase with prResult := .error ⟨some 422, "exists"⟩ }
      "values.yaml" "git@github.com/acme/charts.git" "v2" "svc" "acme" "dev" "/work").2.2 = true ∧
    Log.info "🚨 Pull request already exists" ∈
      (gitCommitAndCreatePr { oracleBase with prResult := .error ⟨some 422, "exists"⟩ }
        "values.yaml" "git@github.com/acme/charts.git" "v2" "svc" "acme" "dev" "/work").2.2 ∧
    noEff Eff.isAddLabels (gitCommitAndCreatePr
      { oracleBase with prResult := .error ⟨some 422, "exists"⟩ }
      "values.yaml" "git@github.com/acme/charts.git" "v2" "svc" "acme" "dev" "/work").2.1 = true ∧
    noEff Eff.isGetPr (gitCommitAndCreatePr
      { oracleBase with prResult := .error ⟨some 422, "exists"⟩ }
      "values.yaml" "git@github.com/acme/charts.git" "v2" "svc" "acme" "dev" "/work").2.1 = true ∧
    noEff Eff.isMerge (gitCommitAndCreatePr
      { oracleBase with prResult := .error ⟨some 422, "exists"⟩ }
      "values.yaml" "git@github.com/acme/charts.git" "v2" "svc" "acme" "dev" "/work").2.1 = true ∧
    (∀ (r : Except ApiErr (Nat × Nat)), (∀ n, r ≠ .ok (201, n)) →
      ((createPullRequest r).1 = none ∧ reportsSuccess (createPullRequest r).2 = true)) :=
  claim_C5 { oracleBase with prResult := .error ⟨some 422, "exists"⟩ }
    "values.yaml" "git@github.com/acme/charts.git" "v2" "svc" "acme" "dev" "/work"
    "image:\n  tag: v1\n" "charts" "exists"
    (.jobj [("image", .jobj [("tag", .jstr "v1")])]) (.jstr "v1")
    rfl rfl rfl rfl rfl rfl rfl rfl

/-! ## Claim C2 -/

/-- A git transport whose push always fails. -/
def alwaysFailPush : Nat → Except JsErr Unit :=
  fun _ => .error (.jsError "remote hung up")

/-- A git transport whose push fails exactly twice, then succeeds. -/
def failTwicePush : Nat → Except JsErr Unit :=
  fun n => if n ≤ 2 then .error (.jsError "remote lock") else .ok ()

/-- Counterexample to claim C2: with `retries: 3` the `async-retry`
wrapper makes the initial attempt plus three retries, so a transport
that always fails sees exactly 4 push attempts, not 3; and the delay
between attempts follows the `retry` package's default factor-2
growth (here at jitter multiplier 1: 5000 then 10000 ms), so it is
not a fixed delay. -/
theorem claim_C2_counterexample :
    (pushLoop alwaysFailPush "b" 1 3).2.1.countP Eff.isPush = 4 ∧
    ¬ (pushLoop alwaysFailPush "b" 1 3).2.1.countP Eff.isPush = 3 ∧
    createTimeout 1 0 = 5000 ∧ createTimeout 1 1 = 10000 ∧
    ¬ createTimeout 1 0 = createTimeout 1 1 := by
  refine ⟨by decide, by decide, ?_, ?_, ?_⟩ <;>
    norm_num [createTimeout, round_eq]

/-- Amended claim C2: the push is wrapped in a bounded retry of the
initial attempt plus up to 3 retries, with factor-2 jittered (not
fixed) delays.  A transport failing exactly twice then succeeding
makes the push succeed on the 3rd attempt with exactly the two retry
warnings naming attempts 1 and 2 and their errors; a transport that
always fails sees exactly 4 attempts and three retry warnings, after
which the error propagates and fails the whole run. -/
theorem claim_C2 :
    (∀ (push : Nat → Except JsErr Unit) (branch : String) (e1 e2 : JsErr),
      push 1 = .error e1 → push 2 = .error e2 → push 3 = .ok () →
      pushLoop push branch 1 3 =
        (.ok (),
         [.gitPush "upstream" branch, .gitPush "upstream" branch, .gitPush "upstream" branch],
         [.warning ("Retry 1 due to error: " ++ e1.message),
          .warning ("Retry 2 due to error: " ++ e2.message)])) ∧
    (∀ (push : Nat → Except JsErr Unit) (branch : String) (e : JsErr),
      (∀ n, push n = .error e) →
      pushLoop push branch 1 3 =
        (.error e,
         [.gitPush "upstream" branch, .gitPush "upstream" branch,
          .gitPush "upstream" branch, .gitPush "upstream" branch],
         [.warning ("Retry 1 due to error: " ++ e.message),
          .warning ("Retry 2 due to error: " ++ e.message),
          .warning ("Retry 3 due to error: " ++ e.message)])) ∧
    (∀ (o : Oracle)
      (filename repo tag service org env tmpdir content : String)
      (data cur : JVal) (e : JsErr),
      o.readFile (tmpdir ++ "/" ++ filename) = .ok content →
      parseYaml content = some data →
      derefImageTag data = .ok cur →
      strictEqStr cur tag = false →
      o.writeResult = .ok () →
      (∀ n, o.pushResult n = .error e) →
      (gitCommitAndCreatePr o filename repo tag service org env tmpdir).1 = .error e ∧
      reportsSuccess (gitCommitAndCreatePr o filename repo tag service org env tmpdir).2.2 = false ∧
      Log.failed ("Error in gitCommitAndCreatePr: " ++ e.message) ∈
        (gitCommitAndCreatePr o filename repo tag service org env tmpdir).2.2) := by
  refine ⟨?_, ?_, ?_⟩
  · intro push branch e1 e2 h1 h2 h3
    simp [pushLoop, h1, h2, h3]
    exact ⟨rfl, rfl⟩
  · intro push branch e h
    simp [pushLoop, h 1, h 2, h 3, h 4]
    exact ⟨rfl, rfl, rfl⟩
  · intro o filename repo tag service org env tmpdir content data cur e
      h1 h2 h3 h4 h5 h6
    have hc := commitAndPushChanges_update o filename tag service tmpdir env content
      data cur h1 h2 h3 h4 h5
    have hp : pushLoop o.pushResult (branchNameOf env service tag) 1 3 =
        (.error e,
         [.gitPush "upstream" (branchNameOf env service tag),
          .gitPush "upstream" (branchNameOf env service tag),
          .gitPush "upstream" (branchNameOf env service tag),
          .gitPush "upstream" (branchNameOf env service tag)],
         [.warning ("Retry 1 due to error: " ++ e.message),
          .warning ("Retry 2 due to error: " ++ e.message),
          .warning ("Retry 3 due to error: " ++ e.message)]) := by
      simp [pushLoop, h6 1, h6 2, h6 3, h6 4]
      exact ⟨rfl, rfl, rfl⟩
    rw [hp] at hc
    simp only [gitCommitAndCreatePr, hc]
    refine ⟨by trivial, ?_, by simp⟩
    simp [reportsSuccess_append, reportsSuccess_info, reportsSuccess_warning,
      reportsSuccess_nil, reportsSuccess, Log.isFailed]

/-- Witness for the amended claim C2: the fail-twice transport
succeeds on the third attempt with two warnings; the always-failing
transport makes four attempts and fails the concrete run. -/
theorem claim_C2_witness :
    pushLoop failTwicePush "b" 1 3 =
      (.ok (), [.gitPush "upstream" "b", .gitPush "upstream" "b", .gitPush "upstream" "b"],
       [.warning ("Retry 1 due to error: " ++ (JsErr.jsError "remote lock").message),
        .warning ("Retry 2 due to error: " ++ (JsErr.jsError "remote lock").message)]) ∧
    pushLoop alwaysFailPush "b" 1 3 =
      (.error (.jsError "remote hung up"),
       [.gitPush "upstream" "b", .gitPush "upstream" "b",
        .gitPush "upstream" "b", .gitPush "upstream" "b"],
       [.warning ("Retry 1 due to error: " ++ (JsErr.jsError "remote hung up").message),
        .warning ("Retry 2 due to error: " ++ (JsErr.jsError "remote hung up").message),
        .warning ("Retry 3 due to error: " ++ (JsErr.jsError "remote hung up").message)]) ∧
    (gitCommitAndCreatePr { oracleBase with pushResult := alwaysFailPush }
      "values.yaml" "git@github.com/acme/charts.git" "v2" "svc" "acme" "dev" "/work").1 =
      .error (.jsError "remote hung up") :=
  ⟨claim_C2.1 failTwicePush "b" (.jsError "remote lock") (.jsError "remote lock")
      rfl rfl rfl,
   claim_C2.2.1 alwaysFailPush "b" (.jsError "remote hung up") (fun _ => rfl),
   (claim_C2.2.2 { oracleBase with pushResult := alwaysFailPush }
      "values.yaml" "git@github.com/acme/charts.git" "v2" "svc" "acme" "dev" "/work"
      "image:\n  tag: v1\n" (.jobj [("image", .jobj [("tag", .jstr "v1")])]) (.jstr "v1")
      (.jsError "remote hung up")
      rfl rfl rfl rfl rfl (fun _ => rfl)).1⟩

/-! ## Claim C4 -/

/-- True for timed waits. -/
def Eff.isSleep : Eff → Bool
  | .sleep _ => true
  | _ => false

/-- Claim C4: the merge orchestrator polls in a bounded loop of 10
attempts with the fixed 10-second delay.  A mergeable-state source
that answers false on the first 4 checks and true on the 5th makes it
merge on the 5th attempt (4 fixed delays, 5 polls, one merge call); a
source that always answers false makes it poll exactly 10 times, never
call merge, and fail with the distinct
"Failed to merge PR after 10 attempts." outcome and no other error. -/
theorem claim_C4 :
    (∀ (o : Oracle) (org repo : String) (pr : Nat),
      (∀ n, n ≤ 4 → o.mergeableResult n = .ok (.jbool false)) →
      o.mergeableResult 5 = .ok (.jbool true) →
      o.mergeResult 5 = .ok () →
      (mergePullRequest o org repo pr).1 = .ok () ∧
      (mergePullRequest o org repo pr).2.1.countP Eff.isGetPr = 5 ∧
      (mergePullRequest o org repo pr).2.1.countP Eff.isMerge = 1 ∧
      (mergePullRequest o org repo pr).2.1.getLast? = some (.apiMergePr org repo pr) ∧
      (mergePullRequest o org repo pr).2.1.countP Eff.isSleep = 4 ∧
      ((mergePullRequest o org repo pr).2.1.all
        (fun e => !e.isSleep || e == Eff.sleep 10000)) = true ∧
      Log.info "🚀 Pull request merged successfully" ∈ (mergePullRequest o org repo pr).2.2 ∧
      reportsSuccess (mergePullRequest o org repo pr).2.2 = true) ∧
    (∀ (o : Oracle) (org repo : String) (pr : Nat),
      (∀ n, o.mergeableResult n = .ok (.jbool false)) →
      (mergePullRequest o org repo pr).1 = .error (.jsError mergeFailMsg) ∧
      (mergePullRequest o org repo pr).2.1.countP Eff.isGetPr = 10 ∧
      (mergePullRequest o org repo pr).2.1.countP Eff.isMerge = 0 ∧
      (mergePullRequest o org repo pr).2.1.countP Eff.isSleep = 9 ∧
      ((mergePullRequest o org repo pr).2.1.all
        (fun e => !e.isSleep || e == Eff.sleep 10000)) = true ∧
      Log.failed mergeFailMsg ∈ (mergePullRequest o org repo pr).2.2 ∧
      (∀ s, Log.failed s ∈ (mergePullRequest o org repo pr).2.2 → s = mergeFailMsg)) := by
  constructor
  · intro o org repo pr hFalse hTrue hMerge
    have k1 := hFalse 1 (by norm_num)
    have k2 := hFalse 2 (by norm_num)
    have k3 := hFalse 3 (by norm_num)
    have k4 := hFalse 4 (by norm_num)
    simp [mergePullRequest, mergeAttempts, checkPullRequestMergeable,
      k1, k2, k3, k4, hTrue, hMerge, jsTruthy, List.countP_cons, Eff.isGetPr,
      Eff.isMerge, Eff.isSleep, reportsSuccess, Log.isFailed]
  · intro o org repo pr hFalse
    simp [mergePullRequest, mergeAttempts, checkPullRequestMergeable,
      hFalse 1, hFalse 2, hFalse 3, hFalse 4, hFalse 5, hFalse 6, hFalse 7,
      hFalse 8, hFalse 9, hFalse 10, jsTruthy, List.countP_cons, Eff.isGetPr,
      Eff.isMerge, Eff.isSleep]

/-- The C4 witness oracle: not mergeable on the first four polls,
mergeable afterwards. -/
def c4Oracle : Oracle :=
  { oracleBase with
    mergeableResult := fun n =>
      if n ≤ 4 then .ok (.jbool false) else .ok (.jbool true) }

/-- An oracle whose PR never becomes mergeable. -/
def neverMergeableOracle : Oracle :=
  { oracleBase with mergeableResult := fun _ => .ok (.jbool false) }

/-- Witness for claim C4 at the concrete polling sources. -/
theorem claim_C4_witness :
    ((mergePullRequest c4Oracle "acme" "charts" 7).1 = .ok () ∧
     (mergePullRequest c4Oracle "acme" "charts" 7).2.1.countP Eff.isGetPr = 5 ∧
     (mergePullRequest c4Oracle "acme" "charts" 7).2.1.countP Eff.isMerge = 1) ∧
    ((mergePullRequest neverMergeableOracle "acme" "charts" 7).1 =
        .error (.jsError mergeFailMsg) ∧
     (mergePullRequest neverMergeableOracle "acme" "charts" 7).2.1.countP Eff.isGetPr = 10) := by
  have hA := claim_C4.1 c4Oracle "acme" "charts" 7
    (fun n hn => by simp only [c4Oracle]; rw [if_pos hn]) rfl rfl
  have hB := claim_C4.2 neverMergeableOracle "acme" "charts" 7 (fun _ => rfl)
  exact ⟨⟨hA.1, hA.2.1, hA.2.2.1⟩, ⟨hB.1, hB.2.1⟩⟩

/-! ## Claim C10 -/

/-- The given oracle with its mergeable-state source replaced by one
that always answers false. -/
def withAlwaysFalseMergeable (o : Oracle) : Oracle :=
  { o with mergeableResult := fun _ => .ok (.jbool false) }

/-- Claim C10: a failed get-pull-request call during polling is
converted by `checkPullRequestMergeable` into `false` (with only a
`core.error` log) instead of being propagated; consequently a
persistently failing API consumes all 10 attempts and ends in exactly
the same "Failed to merge PR after 10 attempts." fatal outcome, with
the same effect trace, as a PR that never became mergeable. -/
theorem claim_C10 :
    (∀ e : ApiErr, checkPullRequestMergeable (.error e) =
      (.jbool false,
       [.errorLine ("Failed to check PR mergeable status. Error: " ++ e.msg)])) ∧
    (∀ (o : Oracle) (org repo : String) (pr : Nat) (ef : Nat → ApiErr),
      (∀ n, o.mergeableResult n = .error (ef n)) →
      (mergePullRequest o org repo pr).1 =
        (mergePullRequest (withAlwaysFalseMergeable o) org repo pr).1 ∧
      (mergePullRequest o org repo pr).2.1 =
        (mergePullRequest (withAlwaysFalseMergeable o) org repo pr).2.1 ∧
      (mergePullRequest o org repo pr).1 = .error (.jsError mergeFailMsg) ∧
      Log.failed mergeFailMsg ∈ (mergePullRequest o org repo pr).2.2) := by
  refine ⟨fun e => rfl, ?_⟩
  intro o org repo pr ef h
  have hw : ∀ n, (withAlwaysFalseMergeable o).mergeableResult n = .ok (.jbool false) :=
    fun _ => rfl
  simp [mergePullRequest, mergeAttempts, checkPullRequestMergeable,
    h 1, h 2, h 3, h 4, h 5, h 6, h 7, h 8, h 9, h 10,
    hw 1, hw 2, hw 3, hw 4, hw 5, hw 6, hw 7, hw 8, hw 9, hw 10,
    jsTruthy, withAlwaysFalseMergeable]

/-- An oracle whose get-pull-request call always fails. -/
def apiDownOracle : Oracle :=
  { oracleBase with mergeableResult := fun _ => .error ⟨some 500, "bad gateway"⟩ }

/-- Witness for claim C10 at a persistently failing polling API. -/
theorem claim_C10_witness :
    checkPullRequestMergeable (.error ⟨some 500, "bad gateway"⟩) =
      (.jbool false,
       [.errorLine ("Failed to check PR mergeable status. Error: " ++ "bad gateway")]) ∧
    (mergePullRequest apiDownOracle "acme" "charts" 7).1 =
      (mergePullRequest (withAlwaysFalseMergeable apiDownOracle) "acme" "charts" 7).1 ∧
    (mergePullRequest apiDownOracle "acme" "charts" 7).1 =
      .error (.jsError mergeFailMsg) :=
  ⟨claim_C10.1 ⟨some 500, "bad gateway"⟩,
   (claim_C10.2 apiDownOracle "acme" "charts" 7 (fun _ => ⟨some 500, "bad gateway"⟩)
      (fun _ => rfl)).1,
   (claim_C10.2 apiDownOracle "acme" "charts" 7 (fun _ => ⟨some 500, "bad gateway"⟩)
      (fun _ => rfl)).2.2.1⟩

/-! ## Claim C9 -/

/-- The shape claim C9 quantifies over the complement of: a mapping
whose top-level `image` key holds a mapping. -/
def isMappingWithImageMapping (d : JVal) : Bool :=
  match d with
  | .jobj fields =>
      match fields.lookup "image" with
      | some (.jobj _) => true
      | _ => false
  | _ => false

/-- True when the dereference threw a `TypeError`. -/
def throwsTypeError (r : Except JsErr JVal) : Bool :=
  match r with
  | .error (.typeError _) => true
  | _ => false

/-- True when the dereference threw anything. -/
def throwsAny (r : Except JsErr JVal) : Bool :=
  match r with
  | .error _ => true
  | _ => false

/-- An oracle whose values file maps `image` to the plain scalar
`latest`. -/
def c9Oracle : Oracle :=
  { oracleBase with readFile := fun _ => .ok "image: latest" }

/-- Counterexample to claim C9: the document `image: latest` parses
to a mapping whose `image` key is a scalar — so it is not a mapping
with an `image` mapping and falls under the claim's quantifier — yet
dereferencing `data.image.tag` yields JavaScript `undefined` without
any `TypeError` (property reads on string primitives do not throw),
and the run proceeds normally: it rewrites the file (unchanged, the
sloppy-mode assignment being a silent no-op), commits and pushes. -/
theorem claim_C9_counterexample :
    isMappingWithImageMapping (.jobj [("image", .jstr "latest")]) = false ∧
    parseYaml "image: latest" = some (.jobj [("image", .jstr "latest")]) ∧
    derefImageTag (.jobj [("image", .jstr "latest")]) = .ok .jundefined ∧
    throwsTypeError (derefImageTag (.jobj [("image", .jstr "latest")])) = false ∧
    (commitAndPushChanges c9Oracle "values.yaml" "v2" "svc" "/work" "dev").1 = .ok () ∧
    Eff.fsWrite "/work/values.yaml" "image: latest\n" ∈
      (commitAndPushChanges c9Oracle "values.yaml" "v2" "svc" "/work" "dev").2.1 ∧
    noEff Eff.isPush (commitAndPushChanges c9Oracle "values.yaml" "v2" "svc" "/work" "dev").2.1
      = false := by
  refine ⟨rfl, rfl, rfl, rfl, rfl, by decide, by decide⟩

/-- Amended claim C9: the unguarded dereference `data.image.tag`
throws a `TypeError` exactly when the parsed document's `image`
property access itself throws (document `null`/`undefined`) or
evaluates to `undefined` or `null` — which covers scalar documents,
list documents, mappings without an `image` key and `image: null`,
but not mappings whose `image` is another primitive, where the read
yields `undefined` silently.  Every such throw is a `TypeError`, and
it escapes `commitAndPushChanges` with no log line at all, in
particular no descriptive misconfiguration message. -/
theorem claim_C9 :
    (∀ d : JVal, throwsTypeError (derefImageTag d) = true ↔
      (d = .jnull ∨ d = .jundefined ∨
       jget d "image" = .ok .jundefined ∨ jget d "image" = .ok .jnull)) ∧
    (∀ d : JVal, throwsAny (derefImageTag d) = throwsTypeError (derefImageTag d)) ∧
    (∀ (o : Oracle) (filename tag service tmpdir env content : String)
      (data : JVal) (e : JsErr),
      o.readFile (tmpdir ++ "/" ++ filename) = .ok content →
      parseYaml content = some data →
      derefImageTag data = .error e →
      (commitAndPushChanges o filename tag service tmpdir env).1 = .error e ∧
      (commitAndPushChanges o filename tag service tmpdir env).2.2 = []) := by
  have hobj : ∀ (fields inner : List (String × JVal)),
      fields.lookup "image" = some (.jobj inner) →
      throwsTypeError (derefImageTag (.jobj fields)) = false ∧
      throwsAny (derefImageTag (.jobj fields)) = false := by
    intro fields inner h
    rcases h2 : inner.lookup "tag" with _ | w2 <;>
      simp [derefImageTag, jget, h, h2, throwsTypeError, throwsAny]
  refine ⟨?_, ?_, ?_⟩
  · intro d
    cases d with
    | jobj fields =>
        rcases h : fields.lookup "image" with _ | w
        · simp [derefImageTag, jget, h, throwsTypeError]
        · cases w with
          | jnull => simp [derefImageTag, jget, h, throwsTypeError]
          | jundefined => simp [derefImageTag, jget, h, throwsTypeError]
          | jbool b => simp [derefImageTag, jget, h, throwsTypeError]
          | jnum n => simp [derefImageTag, jget, h, throwsTypeError]
          | jstr s => simp [derefImageTag, jget, h, throwsTypeError]
          | jarr items => simp [derefImageTag, jget, h, throwsTypeError]
          | jobj inner => simp [jget, h, (hobj fields inner h).1]
    | jarr items => simp [derefImageTag, jget, throwsTypeError]
    | _ => simp [derefImageTag, jget, throwsTypeError]
  · intro d
    cases d with
    | jobj fields =>
        rcases h : fields.lookup "image" with _ | w
        · simp [derefImageTag, jget, h, throwsTypeError, throwsAny]
        · cases w with
          | jnull => simp [derefImageTag, jget, h, throwsTypeError, throwsAny]
          | jundefined => simp [derefImageTag, jget, h, throwsTypeError, throwsAny]
          | jbool b => simp [derefImageTag, jget, h, throwsTypeError, throwsAny]
          | jnum n => simp [derefImageTag, jget, h, throwsTypeError, throwsAny]
          | jstr s => simp [derefImageTag, jget, h, throwsTypeError, throwsAny]
          | jarr items => simp [derefImageTag, jget, h, throwsTypeError, throwsAny]
          | jobj inner => rw [(hobj fields inner h).1, (hobj fields inner h).2]
    | jarr items => simp [derefImageTag, jget, throwsTypeError, throwsAny]
    | _ => simp [derefImageTag, jget, throwsTypeError, throwsAny]
  · intro o filename tag service tmpdir env content data e h1 h2 h3
    simp only [commitAndPushChanges, h1, h2, h3]
    exact ⟨by trivial, by trivial⟩

/-- An oracle whose values file is the scalar document `hello`. -/
def c9ScalarOracle : Oracle :=
  { oracleBase with readFile := fun _ => .ok "hello" }

/-- Witness for the amended claim C9: the scalar document `hello`
(and likewise a list document) throws the `TypeError`, which escapes
`commitAndPushChanges` without any log line. -/
theorem claim_C9_witness :
    (throwsTypeError (derefImageTag (.jstr "hello")) = true ↔
      ((JVal.jstr "hello") = .jnull ∨ (JVal.jstr "hello") = .jundefined ∨
       jget (.jstr "hello") "image" = .ok .jundefined ∨
       jget (.jstr "hello") "image" = .ok .jnull)) ∧
    throwsAny (derefImageTag (.jarr [])) = throwsTypeError (derefImageTag (.jarr [])) ∧
    ((commitAndPushChanges c9ScalarOracle "values.yaml" "v2" "svc" "/work" "dev").1 =
      .error (.typeError "Cannot read properties of undefined (reading \x27tag\x27)") ∧
     (commitAndPushChanges c9ScalarOracle "values.yaml" "v2" "svc" "/work" "dev").2.2 = []) :=
  ⟨claim_C9.1 (.jstr "hello"),
   claim_C9.2.1 (.jarr []),
   claim_C9.2.2 c9ScalarOracle "values.yaml" "v2" "svc" "/work" "dev" "hello"
     (.jstr "hello")
     (.typeError "Cannot read properties of undefined (reading \x27tag\x27)")
     rfl rfl rfl⟩

/-! ## Claim C3 -/

/-- The contents of the file writes in an effect list. -/
def writeContents (effs : List Eff) : List String :=
  effs.filterMap (fun e =>
    match e with
    | .fsWrite _ c => some c
    | _ => none)

/-- Looking up any key in the image-updated field list: the `image`
binding gets `imgUpd`, every other binding is untouched. -/
theorem lookup_map_updImage (fields : List (String × JVal)) (tag k : String) :
    (fields.map (updImage tag)).lookup k =
      if k = "image" then (fields.lookup k).map (imgUpd tag) else fields.lookup k := by
  induction fields with
  | nil => by_cases h : k = "image" <;> simp [h]
  | cons kv rest ih =>
      obtain ⟨k0, v0⟩ := kv
      rw [List.map_cons]
      by_cases h0 : k0 = "image"
      · subst h0
        rw [show updImage tag ("image", v0) = ("image", imgUpd tag v0) from by
          simp [updImage]]
        by_cases hk : k = "image"
        · subst hk
          simp [List.lookup]
        · simp [List.lookup, ih, hk,
            show (k == "image") = false from by simpa using hk]
      · rw [show updImage tag (k0, v0) = (k0, v0) from by simp [updImage, h0]]
        by_cases hk : k = "image"
        · subst hk
          simp [List.lookup, ih,
            show ("image" == k0) = false from by simpa using fun hh => h0 hh.symm]
        · by_cases h0k : k0 = k
          · subst h0k
            simp [List.lookup, hk]
          · simp [List.lookup, ih, hk,
              show (k == k0) = false from by simpa using fun hh => h0k hh.symm]

/-- `setField` sets the given key. -/
theorem setField_lookup_same (l : List (String × JVal)) (key : String) (v : JVal) :
    (setField l key v).lookup key = some v := by
  induction l with
  | nil => simp [setField, List.lookup]
  | cons kv rest ih =>
      obtain ⟨k0, v0⟩ := kv
      show (if k0 = key then (k0, v) :: rest
            else (k0, v0) :: setField rest key v).lookup key = some v
      by_cases h0 : k0 = key
      · subst h0
        simp [List.lookup]
      · rw [if_neg h0]
        simp [List.lookup, ih,
          show (key == k0) = false from by simpa using fun hh => h0 hh.symm]

/-- `setField` leaves every other key unchanged. -/
theorem setField_lookup_other (l : List (String × JVal)) (key k : String) (v : JVal)
    (h : k ≠ key) : (setField l key v).lookup k = l.lookup k := by
  induction l with
  | nil =>
      simp [setField, List.lookup, show (k == key) = false from by simpa using h]
  | cons kv rest ih =>
      obtain ⟨k0, w0⟩ := kv
      show (if k0 = key then (k0, v) :: rest
            else (k0, w0) :: setField rest key v).lookup k = ((k0, w0) :: rest).lookup k
      by_cases h0 : k0 = key
      · subst h0
        simp [List.lookup, show (k == k0) = false from by simpa using h]
      · rw [if_neg h0]
        by_cases h0k : k0 = k
        · subst h0k
          simp [List.lookup]
        · simp [List.lookup, ih,
            show (k == k0) = false from by simpa using fun hh => h0k hh.symm]

/-- Every effect of the push retry loop is a push. -/
theorem pushLoop_effs_push_only (p : Nat → Except JsErr Unit) (b : String) :
    ∀ r a, ((pushLoop p b a r).2.1.all Eff.isPush) = true := by
  intro r
  induction r with
  | zero =>
      intro a
      rcases h : p a with e | u <;> simp [pushLoop, h, Eff.isPush]
  | succ n ih =>
      intro a
      unfold pushLoop
      rcases h : p a with e | u
      · simp [h, Eff.isPush, ih (a + 1)]
      · simp [h, Eff.isPush]

/-- `writeContents` distributes over append. -/
theorem writeContents_append (a b : List Eff) :
    writeContents (a ++ b) = writeContents a ++ writeContents b := by
  simp [writeContents, List.filterMap_append]

/-- A list of pushes contains no write. -/
theorem writeContents_of_push_only (l : List Eff) (h : l.all Eff.isPush = true) :
    writeContents l = [] := by
  induction l with
  | nil => rfl
  | cons e rest ih =>
      simp only [List.all_cons, Bool.and_eq_true] at h
      cases e <;> simp_all [writeContents, Eff.isPush]

/-! ### The plain YAML fragment and its round-trip

The round-trip half of claim C3 is proved for every document of the
modelled plain fragment: block mappings with plain keys and scalars
whose canonical dump re-resolves to the same value (the dumper quotes
type-ambiguous strings, so ordinary string, integer, boolean and null
scalars all qualify).  `okFields` is that well-formedness class. -/

/-- A line content has no whitespace at either edge (and is
nonempty). -/
def noEdgeWs (l : List Char) : Bool :=
  match l with
  | [] => false
  | c :: _ =>
      !wsChar c &&
      (match l.getLast? with
       | some d => !wsChar d
       | none => true)

/-- Equality of flat scalar values. -/
def scalarBeq (a b : JVal) : Bool :=
  match a, b with
  | .jnull, .jnull => true
  | .jbool x, .jbool y => x == y
  | .jnum x, .jnum y => x == y
  | .jstr x, .jstr y => x == y
  | _, _ => false

/-- Characters allowed in a plain mapping key: no colon, newline,
comment marker or whitespace. -/
def plainKeyChar (c : Char) : Bool :=
  !(c = ':' ∨ c = '\n' ∨ c = '#' ∨ wsChar c)

/-- A plain mapping key: nonempty and made of plain characters. -/
def plainKey (k : String) : Bool :=
  !k.data.isEmpty && k.data.all plainKeyChar

/-- A scalar is dumpable when its canonical dump is edge-trimmed,
newline-free and re-resolves to the value itself. -/
def scalarOk (v : JVal) : Bool :=
  noEdgeWs (scalarDump v).data &&
  (scalarDump v).data.all (fun c => !(c = '\n')) &&
  scalarBeq (resolveScalar (scalarDump v).data) v

mutual

/-- A value of the plain fragment: a nonempty block mapping of
fragment values, or a dumpable scalar. -/
def okVal : JVal → Bool
  | .jobj fs => !fs.isEmpty && okFields fs
  | v => scalarOk v

/-- Fields of the plain fragment: plain keys with fragment values. -/
def okFields : List (String × JVal) → Bool
  | [] => true
  | (k, v) :: rest => plainKey k && okVal v && okFields rest

end

mutual

/-- The (indent, content) line pairs `dumpFields` emits. -/
def dumpLines (ind : Nat) : List (String × JVal) → List (Nat × List Char)
  | [] => []
  | (k, v) :: rest => dumpLinesField ind k v ++ dumpLines ind rest

/-- The line pairs of one dumped field. -/
def dumpLinesField (ind : Nat) (k : String) (v : JVal) : List (Nat × List Char) :=
  match v with
  | .jobj fs => (ind, k.data ++ [':']) :: dumpLines (ind + 2) fs
  | scalar => [(ind, k.data ++ ':' :: ' ' :: (scalarDump scalar).data)]

end

/-- Re-assemble the dumped text from its line pairs. -/
def renderLines : List (Nat × List Char) → List Char
  | [] => []
  | (i, c) :: rest => List.replicate i ' ' ++ c ++ '\n' :: renderLines rest

/-- A well-formed emitted line: edge-trimmed, newline-free content
that does not start a comment. -/
def lineOk : Nat × List Char → Bool
  | (_, c) =>
      noEdgeWs c && c.all (fun x => !(x = '\n')) &&
      (match c with
       | x :: _ => !(x = '#')
       | [] => false)

/-- Two strings with the same character data are equal. -/
theorem stringDataExt (a b : String) (h : a.data = b.data) : a = b := by
  cases a
  cases b
  exact congrArg String.mk h

/-- `dropWhile` is the identity when the head fails the predicate. -/
theorem dropWhile_of_head_false (p : Char → Bool) (l : List Char)
    (h : ∀ x, l.head? = some x → p x = false) : l.dropWhile p = l := by
  cases l with
  | nil => rfl
  | cons c rest => simp [List.dropWhile, h c rfl]

/-- `dropWhile` is the identity on a list all of whose elements fail
the predicate. -/
theorem dropWhile_all_not (p : Char → Bool) (l : List Char)
    (h : l.all (fun c => !p c) = true) : l.dropWhile p = l := by
  refine dropWhile_of_head_false p l (fun x hx => ?_)
  cases l with
  | nil => simp at hx
  | cons c rest =>
      simp only [List.head?_cons, Option.some.injEq] at hx
      subst hx
      simp only [List.all_cons, Bool.and_eq_true] at h
      simpa using h.1

/-- Trimming fixes a list with no whitespace anywhere. -/
theorem trimChars_of_all (l : List Char) (h : l.all (fun c => !wsChar c) = true) :
    trimChars l = l := by
  unfold trimChars
  rw [dropWhile_all_not _ _ h,
    dropWhile_all_not _ _ (by simpa [List.all_reverse] using h),
    List.reverse_reverse]

/-- Trimming fixes an edge-trimmed list. -/
theorem trimChars_noEdge (l : List Char) (h : noEdgeWs l = true) : trimChars l = l := by
  cases l with
  | nil => simp [noEdgeWs] at h
  | cons c rest =>
      simp only [noEdgeWs, Bool.and_eq_true] at h
      have hhead : wsChar c = false := by simpa using h.1
      have hlast : ∀ x, (c :: rest).getLast? = some x → wsChar x = false := by
        intro x hx
        have h2 := h.2
        rw [hx] at h2
        simpa using h2
      have h1 : (c :: rest).dropWhile wsChar = c :: rest := by
        refine dropWhile_of_head_false _ _ ?_
        intro x hx
        simp only [List.head?_cons, Option.some.injEq] at hx
        rw [← hx]
        exact hhead
      have h2 : (c :: rest).reverse.dropWhile wsChar = (c :: rest).reverse := by
        refine dropWhile_of_head_false _ _ ?_
        intro x hx
        rw [List.head?_reverse] at hx
        exact hlast x hx
      unfold trimChars
      rw [h1, h2, List.reverse_reverse]

/-- Trimming a single leading space off an edge-trimmed list. -/
theorem trimChars_cons_space (l : List Char) (h : noEdgeWs l = true) :
    trimChars (' ' :: l) = l := by
  have hs : (' ' :: l).dropWhile wsChar = l.dropWhile wsChar := by
    simp [List.dropWhile, wsChar]
  have hl := trimChars_noEdge l h
  unfold trimChars at hl ⊢
  rw [hs]
  exact hl

/-- Dropping whitespace jumps over an all-space prefix. -/
theorem dropWhile_replicate_space (i : Nat) (l : List Char) :
    (List.replicate i ' ' ++ l).dropWhile wsChar = l.dropWhile wsChar := by
  induction i with
  | zero => rfl
  | succ n ih => simpa [List.replicate_succ, List.dropWhile, wsChar] using ih

/-- Trimming an indented line recovers its edge-trimmed content. -/
theorem trimChars_indent (i : Nat) (l : List Char) (h : noEdgeWs l = true) :
    trimChars (List.replicate i ' ' ++ l) = l := by
  have hl := trimChars_noEdge l h
  unfold trimChars at hl ⊢
  rw [dropWhile_replicate_space]
  exact hl

/-- The indent of an indented line with edge-trimmed content. -/
theorem indentOf_indent (i : Nat) (l : List Char) (h : noEdgeWs l = true) :
    indentOf (List.replicate i ' ' ++ l) = i := by
  have hto : (List.replicate i ' ' ++ l).takeWhile (fun c => decide (c = ' ')) =
      List.replicate i ' ' ++ l.takeWhile (fun c => decide (c = ' ')) := by
    induction i with
    | zero => rfl
    | succ n ih => simpa [List.replicate_succ, List.takeWhile] using ih
  have hl : l.takeWhile (fun c => decide (c = ' ')) = [] := by
    cases l with
    | nil => rfl
    | cons c rest =>
        simp only [noEdgeWs, Bool.and_eq_true] at h
        have : (c = ' ') = False := by
          have := h.1
          simp only [wsChar, Bool.not_eq_true] at this
          simp only [eq_iff_iff, iff_false]
          intro hc
          rw [hc] at this
          simp at this
        simp [List.takeWhile, this]
  unfold indentOf
  rw [show (List.replicate i ' ' ++ l).takeWhile (· = ' ') =
    List.replicate i ' ' ++ l.takeWhile (fun c => decide (c = ' ')) from hto]
  simp [hl]

/-- A plain key character is not a colon. -/
theorem plainKeyChar_notColon (c : Char) (h : plainKeyChar c = true) :
    notColon c = true := by
  simp only [plainKeyChar, Bool.not_eq_true', decide_eq_false_iff_not, not_or] at h
  simp [notColon, h.1]

/-- A plain key character is not whitespace. -/
theorem plainKeyChar_not_ws (c : Char) (h : plainKeyChar c = true) :
    wsChar c = false := by
  simp only [plainKeyChar, Bool.not_eq_true', decide_eq_false_iff_not, not_or] at h
  simpa using h.2.2.2

/-- A plain key character is not a newline and not a comment
marker. -/
theorem plainKeyChar_props (c : Char) (h : plainKeyChar c = true) :
    ¬ c = '\n' ∧ ¬ c = '#' := by
  simp only [plainKeyChar, Bool.not_eq_true', decide_eq_false_iff_not, not_or] at h
  exact ⟨h.2.1, h.2.2.1⟩

/-- Splitting at a separator character recovers the prefix before the
first occurrence. -/
theorem splitOnChar_append_sep (c : Char) (xs ys : List Char)
    (h : xs.all (fun x => !(x = c)) = true) :
    splitOnChar c (xs ++ c :: ys) = xs :: splitOnChar c ys := by
  induction xs with
  | nil => simp [splitOnChar]
  | cons x rest ih =>
      simp only [List.all_cons, Bool.and_eq_true] at h
      have hx : ¬ x = c := by simpa using h.1
      simp [splitOnChar, hx, ih h.2]

/-- `takeWhile`/`dropWhile` at the first colon of a line whose key
part is colon-free. -/
theorem takeWhile_notColon (xs ys : List Char) (hxs : xs.all plainKeyChar = true) :
    (xs ++ ':' :: ys).takeWhile notColon = xs ∧
    (xs ++ ':' :: ys).dropWhile notColon = ':' :: ys := by
  induction xs with
  | nil => constructor <;> simp [List.takeWhile, List.dropWhile, notColon]
  | cons x rest ih =>
      simp only [List.all_cons, Bool.and_eq_true] at hxs
      have hx := plainKeyChar_notColon x hxs.1
      obtain ⟨iht, ihd⟩ := ih hxs.2
      constructor <;> simp [List.takeWhile, List.dropWhile, hx, iht, ihd]

/-- `splitKeyValue` on a line built from a plain key, the colon and a
tail. -/
theorem splitKeyValue_key (k : String) (tail : List Char) (hk : plainKey k = true) :
    splitKeyValue (k.data ++ ':' :: tail) = some (k, trimChars tail) := by
  obtain ⟨kd⟩ := k
  simp only [plainKey, Bool.and_eq_true] at hk
  obtain ⟨t1, t2⟩ := takeWhile_notColon kd tail hk.2
  show splitKeyValue (kd ++ ':' :: tail) = some (⟨kd⟩, trimChars tail)
  unfold splitKeyValue
  rw [t1, t2]
  show some (String.mk (trimChars kd), trimChars tail) = some (String.mk kd, trimChars tail)
  rw [trimChars_of_all kd (by
    rw [List.all_eq_true]
    intro c hc
    have hc2 := List.all_eq_true.mp hk.2 c hc
    simp [plainKeyChar_not_ws c hc2])]

/-- Unpack `noEdgeWs` into nonemptiness and the two edge facts. -/
theorem noEdgeWs_parts (l : List Char) (h : noEdgeWs l = true) :
    l ≠ [] ∧ (∀ x, l.head? = some x → wsChar x = false) ∧
    (∀ x, l.getLast? = some x → wsChar x = false) := by
  cases l with
  | nil => simp [noEdgeWs] at h
  | cons c rest =>
      simp only [noEdgeWs, Bool.and_eq_true] at h
      refine ⟨by simp, ?_, ?_⟩
      · intro x hx
        simp only [List.head?_cons, Option.some.injEq] at hx
        rw [← hx]
        simpa using h.1
      · intro x hx
        have h2 := h.2
        rw [hx] at h2
        simpa using h2

/-- A replicate of spaces contains no newline. -/
theorem replicate_space_no_newline (i : Nat) :
    (List.replicate i ' ').all (fun x => !(x = '\n')) = true := by
  rw [List.all_eq_true]
  intro c hc
  rw [List.eq_of_mem_replicate hc]
  decide

/-- The dumped line of a nested-mapping key is well formed. -/
theorem lineOk_objLine (ind : Nat) (k : String) (hk : plainKey k = true) :
    lineOk (ind, k.data ++ [':']) = true := by
  obtain ⟨kd⟩ := k
  simp only [plainKey, Bool.and_eq_true] at hk
  cases kd with
  | nil => simp at hk
  | cons c cs =>
      have hall := List.all_eq_true.mp hk.2
      have hc := hall c (by simp)
      simp only [lineOk, Bool.and_eq_true]
      refine ⟨⟨?_, ?_⟩, ?_⟩
      · show noEdgeWs (c :: (cs ++ [':'])) = true
        simp only [noEdgeWs, Bool.and_eq_true]
        refine ⟨by simp [plainKeyChar_not_ws c hc], ?_⟩
        rw [show (c :: (cs ++ [':'])).getLast? = ((c :: cs) ++ [':']).getLast? from rfl,
          List.getLast?_append_cons]
        decide
      · show ((c :: cs) ++ [':']).all (fun x => !(x = '\n')) = true
        rw [List.all_append, Bool.and_eq_true]
        refine ⟨?_, by decide⟩
        rw [List.all_eq_true]
        intro x hx
        simp [(plainKeyChar_props x (hall x hx)).1]
      · simp [(plainKeyChar_props c hc).2]

/-- The dumped line of a scalar field is well formed. -/
theorem lineOk_scalarLine (ind : Nat) (k : String) (s : List Char)
    (hk : plainKey k = true) (hs : noEdgeWs s = true)
    (hnl : s.all (fun c => !(c = '\n')) = true) :
    lineOk (ind, k.data ++ ':' :: ' ' :: s) = true := by
  obtain ⟨kd⟩ := k
  simp only [plainKey, Bool.and_eq_true] at hk
  obtain ⟨hsne, _, hslast⟩ := noEdgeWs_parts s hs
  cases kd with
  | nil => simp at hk
  | cons c cs =>
      have hall := List.all_eq_true.mp hk.2
      have hc := hall c (by simp)
      cases s with
      | nil => exact absurd rfl hsne
      | cons d s2 =>
          simp only [lineOk, Bool.and_eq_true]
          refine ⟨⟨?_, ?_⟩, ?_⟩
          · show noEdgeWs (c :: (cs ++ ':' :: ' ' :: d :: s2)) = true
            simp only [noEdgeWs, Bool.and_eq_true]
            refine ⟨by simp [plainKeyChar_not_ws c hc], ?_⟩
            rw [show (c :: (cs ++ ':' :: ' ' :: d :: s2)).getLast? =
                ((c :: cs) ++ ':' :: (' ' :: d :: s2)).getLast? from rfl,
              List.getLast?_append_cons,
              show (':' :: ' ' :: d :: s2).getLast? = ([':'] ++ ' ' :: (d :: s2)).getLast? from rfl,
              List.getLast?_append_cons,
              show (' ' :: d :: s2).getLast? = ([' '] ++ d :: s2).getLast? from rfl,
              List.getLast?_append_cons]
            rcases hg : (d :: s2).getLast? with _ | x
            · simp [List.getLast?_eq_none_iff] at hg
            · simp [hslast x hg]
          · show ((c :: cs) ++ ':' :: ' ' :: d :: s2).all (fun x => !(x = '\n')) = true
            rw [List.all_append, Bool.and_eq_true]
            refine ⟨?_, ?_⟩
            · rw [List.all_eq_true]
              intro x hx
              simp [(plainKeyChar_props x (hall x hx)).1]
            · show (([':', ' '] ++ d :: s2).all (fun x => !(x = '\n'))) = true
              rw [List.all_append, Bool.and_eq_true]
              exact ⟨by decide, hnl⟩
          · simp [(plainKeyChar_props c hc).2]

/-- `renderLines` distributes over append. -/
theorem renderLines_append (a b : List (Nat × List Char)) :
    renderLines (a ++ b) = renderLines a ++ renderLines b := by
  induction a with
  | nil => rfl
  | cons p rest ih =>
      obtain ⟨i, c⟩ := p
      simp [renderLines, ih, List.append_assoc]

/-- The dumped text is exactly the rendering of the dumped line
pairs. -/
theorem dumpFields_data (ind : Nat) (fields : List (String × JVal)) :
    (dumpFields ind fields).data = renderLines (dumpLines ind fields) := by
  match fields with
  | [] => rfl
  | (k, v) :: rest =>
      have hrest := dumpFields_data ind rest
      cases v with
      | jobj fs =>
          have hfs := dumpFields_data (ind + 2) fs
          show (dumpField ind k (.jobj fs) ++ dumpFields ind rest).data = _
          simp [dumpField, dumpLines, dumpLinesField, renderLines, renderLines_append,
            String.data_append, spaces, hrest, hfs, List.append_assoc]
      | jnull =>
          show (dumpField ind k .jnull ++ dumpFields ind rest).data = _
          simp [dumpField, dumpLines, dumpLinesField, renderLines, String.data_append,
            spaces, hrest, List.append_assoc]
      | jundefined =>
          show (dumpField ind k .jundefined ++ dumpFields ind rest).data = _
          simp [dumpField, dumpLines, dumpLinesField, renderLines, String.data_append,
            spaces, hrest, List.append_assoc]
      | jbool b =>
          show (dumpField ind k (.jbool b) ++ dumpFields ind rest).data = _
          simp [dumpField, dumpLines, dumpLinesField, renderLines, String.data_append,
            spaces, hrest, List.append_assoc]
      | jnum n =>
          show (dumpField ind k (.jnum n) ++ dumpFields ind rest).data = _
          simp [dumpField, dumpLines, dumpLinesField, renderLines, String.data_append,
            spaces, hrest, List.append_assoc]
      | jstr s =>
          show (dumpField ind k (.jstr s) ++ dumpFields ind rest).data = _
          simp [dumpField, dumpLines, dumpLinesField, renderLines, String.data_append,
            spaces, hrest, List.append_assoc]
      | jarr items =>
          show (dumpField ind k (.jarr items) ++ dumpFields ind rest).data = _
          simp [dumpField, dumpLines, dumpLinesField, renderLines, String.data_append,
            spaces, hrest, List.append_assoc]
termination_by sizeOf fields

/-- Every line dumped from a fragment document is well formed. -/
theorem dumpLines_all_lineOk (fields : List (String × JVal)) (ind : Nat)
    (h : okFields fields = true) : (dumpLines ind fields).all lineOk = true := by
  match fields with
  | [] => rfl
  | (k, v) :: rest =>
      simp only [okFields, Bool.and_eq_true] at h
      obtain ⟨⟨hk, hv⟩, hr⟩ := h
      have hrest := dumpLines_all_lineOk rest ind hr
      cases v with
      | jobj fs =>
          simp only [okVal, Bool.and_eq_true] at hv
          have hfs := dumpLines_all_lineOk fs (ind + 2) hv.2
          show ((((ind, k.data ++ [':']) : Nat × List Char) :: dumpLines (ind + 2) fs) ++
            dumpLines ind rest).all lineOk = true
          rw [List.all_append, List.all_cons]
          simp [lineOk_objLine ind k hk, hfs, hrest]
      | jnull =>
          simp only [okVal, scalarOk, Bool.and_eq_true] at hv
          show ([((ind, k.data ++ ':' :: ' ' :: (scalarDump .jnull).data) : Nat × List Char)] ++
            dumpLines ind rest).all lineOk = true
          rw [List.all_append, List.all_cons]
          simp [lineOk_scalarLine ind k _ hk hv.1.1 hv.1.2, hrest]
      | jundefined =>
          simp only [okVal, scalarOk, Bool.and_eq_true] at hv
          show ([((ind, k.data ++ ':' :: ' ' :: (scalarDump .jundefined).data) : Nat × List Char)] ++
            dumpLines ind rest).all lineOk = true
          rw [List.all_append, List.all_cons]
          simp [lineOk_scalarLine ind k _ hk hv.1.1 hv.1.2, hrest]
      | jbool b =>
          simp only [okVal, scalarOk, Bool.and_eq_true] at hv
          show ([((ind, k.data ++ ':' :: ' ' :: (scalarDump (.jbool b)).data) : Nat × List Char)] ++
            dumpLines ind rest).all lineOk = true
          rw [List.all_append, List.all_cons]
          simp [lineOk_scalarLine ind k _ hk hv.1.1 hv.1.2, hrest]
      | jnum n =>
          simp only [okVal, scalarOk, Bool.and_eq_true] at hv
          show ([((ind, k.data ++ ':' :: ' ' :: (scalarDump (.jnum n)).data) : Nat × List Char)] ++
            dumpLines ind rest).all lineOk = true
          rw [List.all_append, List.all_cons]
          simp [lineOk_scalarLine ind k _ hk hv.1.1 hv.1.2, hrest]
      | jstr s =>
          simp only [okVal, scalarOk, Bool.and_eq_true] at hv
          show ([((ind, k.data ++ ':' :: ' ' :: (scalarDump (.jstr s)).data) : Nat × List Char)] ++
            dumpLines ind rest).all lineOk = true
          rw [List.all_append, List.all_cons]
          simp [lineOk_scalarLine ind k _ hk hv.1.1 hv.1.2, hrest]
      | jarr items =>
          simp only [okVal, scalarOk, Bool.and_eq_true] at hv
          show ([((ind, k.data ++ ':' :: ' ' :: (scalarDump (.jarr items)).data) : Nat × List Char)] ++
            dumpLines ind rest).all lineOk = true
          rw [List.all_append, List.all_cons]
          simp [lineOk_scalarLine ind k _ hk hv.1.1 hv.1.2, hrest]
termination_by sizeOf fields

/-- Splitting well-formed rendered lines back into (indent, content)
pairs recovers them. -/
theorem yamlLines_mk_renderLines (lines : List (Nat × List Char))
    (h : lines.all lineOk = true) :
    yamlLines (String.mk (renderLines lines)) = lines := by
  induction lines with
  | nil => rfl
  | cons p rest ih =>
      obtain ⟨i, c⟩ := p
      simp only [List.all_cons, Bool.and_eq_true] at h
      obtain ⟨hline, hrest⟩ := h
      simp only [lineOk, Bool.and_eq_true] at hline
      obtain ⟨⟨hne, hnl⟩, hhash⟩ := hline
      have hsplit : splitOnChar '\n' (renderLines ((i, c) :: rest)) =
          (List.replicate i ' ' ++ c) :: splitOnChar '\n' (renderLines rest) := by
        rw [show renderLines ((i, c) :: rest) =
            (List.replicate i ' ' ++ c) ++ '\n' :: renderLines rest from by
          simp [renderLines, List.append_assoc]]
        refine splitOnChar_append_sep '\n' _ _ ?_
        rw [List.all_append, Bool.and_eq_true]
        exact ⟨replicate_space_no_newline i, hnl⟩
      show (splitOnChar '\n' (renderLines ((i, c) :: rest))).filterMap _ = _
      rw [hsplit, List.filterMap_cons]
      rw [trimChars_indent i c hne, indentOf_indent i c hne]
      cases c with
      | nil => simp [noEdgeWs] at hne
      | cons d cs =>
          have hd : ¬ d = '#' := by simpa using hhash
          rw [show (match (d :: cs : List Char) with
            | [] => none
            | '#' :: _ => none
            | content => some ((i : Nat), content)) = some (i, d :: cs) from by
              split
              · simp_all
              · simp_all
              · rfl]
          show (i, d :: cs) :: yamlLines (String.mk (renderLines rest)) = (i, d :: cs) :: rest
          rw [ih hrest]

/-- Flat scalar equality is propositional equality. -/
theorem scalarBeq_eq (a b : JVal) (h : scalarBeq a b = true) : a = b := by
  cases a <;> cases b <;> simp_all [scalarBeq]

mutual

/-- A termination measure for documents of the fragment. -/
def jweight : JVal → Nat
  | .jobj fs => 1 + fweight fs
  | _ => 1

/-- A termination measure for field lists of the fragment. -/
def fweight : List (String × JVal) → Nat
  | [] => 0
  | (_, v) :: r => 1 + jweight v + fweight r

end

/-- A dumped field group starts with a line at the field's indent,
and that line splits at its first colon. -/
theorem dumpLines_head_split (ind : Nat) (k : String) (v : JVal)
    (restF : List (String × JVal)) (hk : plainKey k = true) :
    ∃ c tail p, dumpLines ind ((k, v) :: restF) = (ind, c) :: tail ∧
      splitKeyValue c = some p := by
  cases v <;> exact ⟨_, _, _, rfl, splitKeyValue_key k _ hk⟩

/-- A dumped field group starts with a line at the field's indent. -/
theorem dumpLines_head (ind : Nat) (k : String) (v : JVal)
    (restF : List (String × JVal)) :
    ∃ c tail, dumpLines ind ((k, v) :: restF) = (ind, c) :: tail := by
  cases v <;> exact ⟨_, _, rfl⟩

/-- One parsing step across a dumped scalar field line. -/
theorem parseEntries_scalar_step (k : String) (v : JVal)
    (fsRest : List (String × JVal)) (ind f : Nat)
    (tail rest : List (Nat × List Char))
    (hk : plainKey k = true) (hv : scalarOk v = true)
    (hrec : parseEntries f ind tail = some (fsRest, rest)) :
    parseEntries (f + 1) ind
      ((ind, k.data ++ ':' :: ' ' :: (scalarDump v).data) :: tail) =
      some ((k, v) :: fsRest, rest) := by
  simp only [scalarOk, Bool.and_eq_true] at hv
  obtain ⟨⟨hedge, hnl⟩, hbeq⟩ := hv
  have hsplit := splitKeyValue_key k (' ' :: (scalarDump v).data) hk
  rw [trimChars_cons_space _ hedge] at hsplit
  have hres : resolveScalar (scalarDump v).data = v := scalarBeq_eq _ _ hbeq
  have hne : ¬ (scalarDump v).data = [] := (noEdgeWs_parts _ hedge).1
  simp only [parseEntries, lt_irrefl, if_false, hsplit, hne, hrec, hres]

/-- One parsing step across a dumped nested-mapping field: its key
line, its indented block, then the siblings. -/
theorem parseEntries_obj_step (k : String) (fs fsRest : List (String × JVal))
    (ind f : Nat) (tail2 rest : List (Nat × List Char))
    (hk : plainKey k = true) (hfsne : fs ≠ [])
    (hrec1 : parseEntries f (ind + 2) (dumpLines (ind + 2) fs ++ tail2) =
      some (fs, tail2))
    (hrec2 : parseEntries f ind tail2 = some (fsRest, rest)) :
    parseEntries (f + 1) ind
      ((ind, k.data ++ [':']) :: (dumpLines (ind + 2) fs ++ tail2)) =
      some ((k, .jobj fs) :: fsRest, rest) := by
  obtain ⟨⟨k2, v2⟩, fs2, rfl⟩ : ∃ a b, fs = a :: b := by
    cases fs with
    | nil => exact absurd rfl hfsne
    | cons a b => exact ⟨a, b, rfl⟩
  obtain ⟨c2, t2, he⟩ := dumpLines_head (ind + 2) k2 v2 fs2
  rw [he] at hrec1 ⊢
  have hsplit := splitKeyValue_key k [] hk
  have hlt : ind < ind + 2 := by omega
  simp only [parseEntries, lt_irrefl, if_false, List.cons_append, hsplit, hlt,
    if_true]
  rw [if_pos (show trimChars ([] : List Char) = [] from rfl)]
  rw [List.cons_append] at hrec1
  simp only [hrec1, hrec2]

/-- Parsing the dumped lines of a fragment document recovers its
fields and leaves the dedented remainder untouched. -/
theorem parseEntries_dumpLines (fields : List (String × JVal)) (ind fuel : Nat)
    (rest : List (Nat × List Char)) :
    okFields fields = true →
    (∀ j c, rest.head? = some (j, c) → j < ind) →
    (dumpLines ind fields).length + 1 ≤ fuel →
    parseEntries fuel ind (dumpLines ind fields ++ rest) = some (fields, rest) :=
  match fields with
  | [] => fun _ hrest hfuel => by
      obtain ⟨f, rfl⟩ : ∃ f, fuel = f + 1 := ⟨fuel - 1, by omega⟩
      show parseEntries (f + 1) ind rest = some ([], rest)
      cases rest with
      | nil => simp [parseEntries]
      | cons p tail =>
          obtain ⟨j, c⟩ := p
          have hj := hrest j c rfl
          simp [parseEntries, hj]
  | (k, v) :: fsRest => fun hok hrest hfuel => by
      obtain ⟨f, rfl⟩ : ∃ f, fuel = f + 1 := ⟨fuel - 1, by omega⟩
      simp only [okFields, Bool.and_eq_true] at hok
      obtain ⟨⟨hk, hv⟩, hr⟩ := hok
      cases v with
      | jobj fs =>
          simp only [okVal, Bool.and_eq_true] at hv
          obtain ⟨hfsne0, hfsok⟩ := hv
          have hfsne : fs ≠ [] := by
            cases fs
            · simp at hfsne0
            · simp
          have hrest1 : ∀ j c, (dumpLines ind fsRest ++ rest).head? = some (j, c) →
              j < ind + 2 := by
            cases fsRest with
            | nil =>
                intro j c hj
                simp only [dumpLines, List.nil_append] at hj
                exact lt_trans (hrest j c hj) (by omega)
            | cons p2 fr2 =>
                obtain ⟨k3, v3⟩ := p2
                obtain ⟨c3, t3, he3⟩ := dumpLines_head ind k3 v3 fr2
                intro j c hj
                rw [he3] at hj
                simp only [List.cons_append, List.head?_cons, Option.some.injEq,
                  Prod.mk.injEq] at hj
                omega
          have hrec1 := parseEntries_dumpLines fs (ind + 2) f
            (dumpLines ind fsRest ++ rest) hfsok hrest1 (by
              simp only [dumpLines, dumpLinesField, List.length_append,
                List.length_cons] at hfuel
              omega)
          have hrec2 := parseEntries_dumpLines fsRest ind f rest hr hrest (by
              simp only [dumpLines, dumpLinesField, List.length_append,
                List.length_cons] at hfuel
              omega)
          show parseEntries (f + 1) ind
            ((ind, k.data ++ [':']) ::
              ((dumpLines (ind + 2) fs ++ dumpLines ind fsRest) ++ rest)) =
            some ((k, .jobj fs) :: fsRest, rest)
          rw [List.append_assoc]
          exact parseEntries_obj_step k fs fsRest ind f
            (dumpLines ind fsRest ++ rest) rest hk hfsne hrec1 hrec2
      | jnull =>
          have hv2 : scalarOk .jnull = true := hv
          have hrec := parseEntries_dumpLines fsRest ind f rest hr hrest (by
            simp only [dumpLines, dumpLinesField, List.length_append,
              List.length_cons] at hfuel
            omega)
          exact parseEntries_scalar_step k .jnull fsRest ind f
            (dumpLines ind fsRest ++ rest) rest hk hv2 hrec
      | jundefined =>
          have hv2 : scalarOk .jundefined = true := hv
          have hrec := parseEntries_dumpLines fsRest ind f rest hr hrest (by
            simp only [dumpLines, dumpLinesField, List.length_append,
              List.length_cons] at hfuel
            omega)
          exact parseEntries_scalar_step k .jundefined fsRest ind f
            (dumpLines ind fsRest ++ rest) rest hk hv2 hrec
      | jbool b =>
          have hv2 : scalarOk (.jbool b) = true := hv
          have hrec := parseEntries_dumpLines fsRest ind f rest hr hrest (by
            simp only [dumpLines, dumpLinesField, List.length_append,
              List.length_cons] at hfuel
            omega)
          exact parseEntries_scalar_step k (.jbool b) fsRest ind f
            (dumpLines ind fsRest ++ rest) rest hk hv2 hrec
      | jnum n =>
          have hv2 : scalarOk (.jnum n) = true := hv
          have hrec := parseEntries_dumpLines fsRest ind f rest hr hrest (by
            simp only [dumpLines, dumpLinesField, List.length_append,
              List.length_cons] at hfuel
            omega)
          exact parseEntries_scalar_step k (.jnum n) fsRest ind f
            (dumpLines ind fsRest ++ rest) rest hk hv2 hrec
      | jstr s =>
          have hv2 : scalarOk (.jstr s) = true := hv
          have hrec := parseEntries_dumpLines fsRest ind f rest hr hrest (by
            simp only [dumpLines, dumpLinesField, List.length_append,
              List.length_cons] at hfuel
            omega)
          exact parseEntries_scalar_step k (.jstr s) fsRest ind f
            (dumpLines ind fsRest ++ rest) rest hk hv2 hrec
      | jarr items =>
          have hv2 : scalarOk (.jarr items) = true := hv
          have hrec := parseEntries_dumpLines fsRest ind f rest hr hrest (by
            simp only [dumpLines, dumpLinesField, List.length_append,
              List.length_cons] at hfuel
            omega)
          exact parseEntries_scalar_step k (.jarr items) fsRest ind f
            (dumpLines ind fsRest ++ rest) rest hk hv2 hrec
termination_by fweight fields
decreasing_by all_goals (simp [fweight, jweight] <;> omega)

/-- Round trip on the plain fragment: parsing the dump of any
well-formed, nonempty fragment document yields the document back. -/
theorem parseYaml_dumpYaml (fields : List (String × JVal))
    (h : okFields fields = true) (hne : fields ≠ []) :
    parseYaml (dumpYaml (.jobj fields)) = some (.jobj fields) := by
  have hstr : dumpYaml (.jobj fields) = String.mk (renderLines (dumpLines 0 fields)) :=
    stringDataExt _ _ (dumpFields_data 0 fields)
  rw [hstr]
  have hlines : yamlLines (String.mk (renderLines (dumpLines 0 fields))) =
      dumpLines 0 fields :=
    yamlLines_mk_renderLines _ (dumpLines_all_lineOk fields 0 h)
  obtain ⟨⟨k, v⟩, fs2, rfl⟩ : ∃ a b, fields = a :: b := by
    cases fields with
    | nil => exact absurd rfl hne
    | cons a b => exact ⟨a, b, rfl⟩
  have hk0 : plainKey k = true := by
    simp only [okFields, Bool.and_eq_true] at h
    exact h.1.1
  obtain ⟨c0, t0, p0, he0, hsp0⟩ := dumpLines_head_split 0 k v fs2 hk0
  have hlen0 : (dumpLines 0 ((k, v) :: fs2)).length = t0.length + 1 := by
    rw [he0]
    rfl
  have hpe : parseEntries (t0.length + 2) 0 ((0, c0) :: t0) =
      some ((k, v) :: fs2, []) := by
    rw [← he0, ← List.append_nil (dumpLines 0 ((k, v) :: fs2))]
    refine parseEntries_dumpLines ((k, v) :: fs2) 0 (t0.length + 2) [] h ?_ ?_
    · intro j c hj
      simp at hj
    · omega
  unfold parseYaml
  rw [hlines, he0]
  simp only [hsp0, hpe]

/-- An oracle whose values file starts with a comment line. -/
def c3Oracle : Oracle :=
  { oracleBase with readFile := fun _ => .ok "# note\nimage:\n  tag: v1\n" }

/-- Counterexample to claim C3: for the input file
`# note\nimage:\n  tag: v1\n` and requested tag `v2`, the only byte
change the claim permits would give `# note\nimage:\n  tag: v2\n`;
the run instead writes `image:\n  tag: v2\n` — the re-serialisation
drops the comment line, so the written file differs from the input
beyond the `image.tag` scalar. -/
theorem claim_C3_counterexample :
    writeContents (commitAndPushChanges c3Oracle "values.yaml" "v2" "svc" "/work" "dev").2.1 =
      ["image:\n  tag: v2\n"] ∧
    ¬ writeContents (commitAndPushChanges c3Oracle "values.yaml" "v2" "svc" "/work" "dev").2.1 =
      ["# note\nimage:\n  tag: v2\n"] := by
  constructor <;> decide

/-- Amended claim C3: the rewrite preserves the parsed structure
rather than the bytes — every top-level key other than `image` and
every key inside `image` other than `tag` keeps its value, `tag`
becomes exactly the requested string, the run writes exactly the
re-serialisation of that updated structure, and round-tripping
write→read yields the written structure for every document of the
modelled plain fragment (`okFields`: nonempty block mappings with
plain keys, scalars whose canonical dump — type-ambiguous strings
quoted, as `js-yaml` emits them — re-resolves to the same value), a
class containing the written document of the counterexample run;
byte-identity with the input does not hold in general, since the
serialiser re-emits the document canonically. -/
theorem claim_C3 :
    (∀ (data : JVal) (tag k : String), k ≠ "image" →
      jlookup (setImageTag data tag) k = jlookup data k) ∧
    (∀ (fields inner : List (String × JVal)) (tag : String),
      fields.lookup "image" = some (.jobj inner) →
      jlookup (setImageTag (.jobj fields) tag) "image" =
        some (.jobj (setField inner "tag" (.jstr tag))) ∧
      (setField inner "tag" (.jstr tag)).lookup "tag" = some (.jstr tag) ∧
      (∀ k, k ≠ "tag" → (setField inner "tag" (.jstr tag)).lookup k = inner.lookup k)) ∧
    (∀ (o : Oracle) (filename tag service tmpdir env content : String) (data cur : JVal),
      o.readFile (tmpdir ++ "/" ++ filename) = .ok content →
      parseYaml content = some data →
      derefImageTag data = .ok cur →
      strictEqStr cur tag = false →
      o.writeResult = .ok () →
      writeContents (commitAndPushChanges o filename tag service tmpdir env).2.1 =
        [dumpYaml (setImageTag data tag)]) ∧
    (∀ (fields : List (String × JVal)), okFields fields = true → fields ≠ [] →
      parseYaml (dumpYaml (.jobj fields)) = some (.jobj fields)) ∧
    (okFields [("image", .jobj [("tag", .jstr "v2")])] = true) := by
  refine ⟨?_, ?_, ?_, fun fields h hne => parseYaml_dumpYaml fields h hne, by decide⟩
  · intro data tag k hk
    cases data with
    | jobj fields => simp [setImageTag, jlookup, lookup_map_updImage, hk]
    | _ => rfl
  · intro fields inner tag h
    refine ⟨?_, setField_lookup_same inner "tag" (.jstr tag),
      fun k hk => setField_lookup_other inner "tag" k (.jstr tag) hk⟩
    simp [setImageTag, jlookup, lookup_map_updImage, h, imgUpd]
  · intro o filename tag service tmpdir env content data cur h1 h2 h3 h4 h5
    rw [commitAndPushChanges_update o filename tag service tmpdir env content data cur
      h1 h2 h3 h4 h5]
    rw [writeContents_append, writeContents_of_push_only _
      (pushLoop_effs_push_only o.pushResult (branchNameOf env service tag) 3 1)]
    rfl

/-- Witness for the amended claim C3 at the concrete commented
document: structure preserved, tag replaced, written bytes as
re-serialised, and the round trip at a document with a
type-ambiguous string scalar (dumped quoted, so it survives
re-parsing as a string). -/
theorem claim_C3_witness :
    jlookup (setImageTag (.jobj [("image", .jobj [("tag", .jstr "v1")])]) "v2") "other" =
      jlookup (.jobj [("image", .jobj [("tag", .jstr "v1")])]) "other" ∧
    ((setField [("tag", JVal.jstr "v1")] "tag" (.jstr "v2")).lookup "tag" =
      some (.jstr "v2")) ∧
    writeContents (commitAndPushChanges c3Oracle "values.yaml" "v2" "svc" "/work" "dev").2.1 =
      [dumpYaml (setImageTag (.jobj [("image", .jobj [("tag", .jstr "v1")])]) "v2")] ∧
    parseYaml (dumpYaml (.jobj
        [("image", .jobj [("tag", .jstr "v2")]), ("name", .jstr "true")])) =
      some (.jobj [("image", .jobj [("tag", .jstr "v2")]), ("name", .jstr "true")]) :=
  ⟨claim_C3.1 (.jobj [("image", .jobj [("tag", .jstr "v1")])]) "v2" "other" (by decide),
   (claim_C3.2.1 [("image", .jobj [("tag", .jstr "v1")])] [("tag", .jstr "v1")] "v2"
     rfl).2.1,
   claim_C3.2.2.1 c3Oracle "values.yaml" "v2" "svc" "/work" "dev"
     "# note\nimage:\n  tag: v1\n"
     (.jobj [("image", .jobj [("tag", .jstr "v1")])]) (.jstr "v1")
     rfl rfl rfl rfl rfl,
   claim_C3.2.2.2.1
     [("image", .jobj [("tag", .jstr "v2")]), ("name", .jstr "true")]
     (by decide) (by simp)⟩

end GitopsUpdate
